import Mathlib

/-!
# Verification of the leadtrail core pipeline

Shallow embedding, in Lean 4, of the core modules of the `leadtrail`
repository, together with proofs settling the frozen claims C1..C10.

Modules embedded (from `src/leadtrail/portal/modules/`):
* `website_crawler_v3.py` — precision two-phase crawler (claims C1, C2);
* `vat_lookup.py`         — VAT resolver (claims C3, C6, C10);
* `website_hunter_api.py` — domain extraction from SERP results (claim C7);
* `linkedin_finder.py`    — LinkedIn scoring/classification (claim C8);
* `contact_extractor.py`  — UK contact extraction (claims C4, C5, C9).

Modelling conventions, used throughout:
* Python strings are Lean `String`s, manipulated through their `List Char`
  data; all text in scope is ASCII, so Python `str.upper` / `str.lower` /
  `str.strip` are modelled by the ASCII case maps and whitespace strip
  below (Python's extra Unicode behaviour is irrelevant to every claim).
* Python `re` patterns are embedded by a small backtracking engine with
  Python semantics (leftmost scan, alternation order, greedy repetition,
  `\b` word boundaries); each compiled pattern of the source is translated
  constructor by constructor.
* Network I/O and HTML parsing (requests / BeautifulSoup) are oracles: a
  fetch is a function `String → Option …` (None = request error or
  non-200 status), and parsed artefacts (anchor lists, text extraction,
  table rows) are supplied by oracle functions.  Everything after those
  boundaries is translated from the source.
* A Python `set` accumulated then listed (`list(set(...))`) is modelled as
  a first-insertion-ordered duplicate-free list.  CPython's iteration
  order is unspecified; every property proved below (membership,
  non-membership, length, universal statements over elements) is
  invariant under the order chosen.
-/

/-! ## Character and string utilities -/

/-- Python `\s` on ASCII text: the six ASCII whitespace characters. -/
def isPySpace (c : Char) : Bool :=
  c = ' ' || c = '\t' || c = '\n' || c = '\r' || c = '\x0b' || c = '\x0c'

/-- ASCII decimal digit (Python `\d` on ASCII text, and `str.isdigit`). -/
def isAsciiDigit (c : Char) : Bool := '0' ≤ c && c ≤ '9'

/-- ASCII letter. -/
def isAsciiAlpha (c : Char) : Bool := ('a' ≤ c && c ≤ 'z') || ('A' ≤ c && c ≤ 'Z')

/-- Python regex `\w` on ASCII text: letters, digits, underscore. -/
def isWordChar (c : Char) : Bool := isAsciiAlpha c || isAsciiDigit c || c = '_'

/-- ASCII lower-casing of one character (Python `str.lower` on ASCII). -/
def lowChar (c : Char) : Char :=
  if 65 ≤ c.toNat ∧ c.toNat ≤ 90 then Char.ofNat (c.toNat + 32) else c

/-- ASCII upper-casing of one character (Python `str.upper` on ASCII). -/
def upChar (c : Char) : Char :=
  if 97 ≤ c.toNat ∧ c.toNat ≤ 122 then Char.ofNat (c.toNat - 32) else c

/-- Python `str.lower` (ASCII fragment). -/
def pyLower (s : String) : String := String.mk (s.data.map lowChar)

/-- Python `str.upper` (ASCII fragment). -/
def pyUpper (s : String) : String := String.mk (s.data.map upChar)

/-- Python `str.strip()` on a character list. -/
def pyStripL (l : List Char) : List Char :=
  ((l.dropWhile isPySpace).reverse.dropWhile isPySpace).reverse

/-- Python `str.strip()`. -/
def pyStrip (s : String) : String := String.mk (pyStripL s.data)

/-- Python substring test `needle in hay` on character lists. -/
def listHas : List Char → List Char → Bool
  | n, [] => n.isEmpty
  | n, c :: cs => n.isPrefixOf (c :: cs) || listHas n cs

/-- Python substring test `needle in hay` for strings. -/
def strHas (hay needle : String) : Bool := listHas needle.data hay.data

/-- Python `str.startswith` for strings. -/
def strStarts (s p : String) : Bool := p.data.isPrefixOf s.data

/-- Accumulate into a duplicate-free list, keeping first occurrences.
This is the `if x not in acc: acc.append(x)` idiom of the source, and the
order-canonical model of a Python `set` accumulation. -/
def insertNew (acc : List String) (x : String) : List String :=
  if x ∈ acc then acc else acc ++ [x]

/-- First-occurrence deduplication of a list of strings. -/
def dedupFirst (l : List String) : List String := l.foldl insertNew []

/-- Python `s[n:]` (drop the first `n` characters). -/
def strDrop (s : String) (n : Nat) : String := String.mk (s.data.drop n)

/-- Python `len(s)` for ASCII text. -/
def strLen (s : String) : Nat := s.data.length

/-- The distinct characters of a string (Python `set(s)` cardinality helper). -/
def distinctChars (s : String) : List Char := s.data.foldl (fun acc c => if c ∈ acc then acc else acc ++ [c]) []

/-! ## A regex engine with Python `re` semantics

Backtracking matcher over `List Char`.  Preference order is Python's:
alternation tries the left branch first, repetition is greedy.  `wordB` is
`\b` (needs the previous character as context), `eos` is `$` at the very
end of the subject (none of the subject strings in scope can carry the
trailing-newline special case of Python's `$`, see the call sites).
Match/scan functions use explicit fuel equal to the subject length so that
every definition reduces by kernel computation. -/

inductive RE where
  | eps : RE
  | cls (p : Char → Bool) : RE
  | seq (a b : RE) : RE
  | alt (a b : RE) : RE
  | starCls (p : Char → Bool) : RE
  | wordB : RE
  | eos : RE

/-- Word-boundary test between the previous character and the rest. -/
def atBoundary (prev : Option Char) (rest : List Char) : Bool :=
  let l := match prev with | some c => isWordChar c | none => false
  let r := match rest with | c :: _ => isWordChar c | [] => false
  l != r

/-- Greedy Kleene star over a character class, with backtracking into the
continuation `k` (longest consumption tried first). -/
def starRun (p : Char → Bool) : List Char → Option Char →
    (List Char → Option Char → Option Nat) → Option Nat
  | s, pr, k =>
    match s with
    | [] => k [] pr
    | c :: cs =>
      if p c then
        match starRun p cs (some c) k with
        | some n => some n
        | none => k s pr
      else k s pr

/-- Backtracking matcher in continuation style.  The continuation receives
the remaining subject and the new previous-character context. -/
def mrun : RE → List Char → Option Char → (List Char → Option Char → Option Nat) → Option Nat
  | .eps, s, pr, k => k s pr
  | .cls p, s, _, k =>
    match s with
    | [] => none
    | c :: cs => if p c then k cs (some c) else none
  | .seq a b, s, pr, k => mrun a s pr (fun s2 p2 => mrun b s2 p2 k)
  | .alt a b, s, pr, k =>
    match mrun a s pr k with
    | some n => some n
    | none => mrun b s pr k
  | .starCls p, s, pr, k => starRun p s pr k
  | .wordB, s, pr, k => if atBoundary pr s then k s pr else none
  | .eos, s, pr, k => if s.isEmpty then k s pr else none

/-- Length of the preferred match of `re` at the current position, if any. -/
def matchLen (re : RE) (s : List Char) (pr : Option Char) : Option Nat :=
  mrun re s pr (fun s2 _ => some (s.length - s2.length))

/-- Scan for all non-overlapping matches, Python `re.findall` (none of the
embedded patterns matches the empty string; an empty match just advances,
see the guard). -/
def findallF (re : RE) : Nat → List Char → Option Char → List (List Char)
  | 0, _, _ => []
  | _, [], _ => []
  | fuel + 1, c :: cs, pr =>
    match matchLen re (c :: cs) pr with
    | some n =>
      if n = 0 then findallF re fuel cs (some c)
      else ((c :: cs).take n) :: findallF re fuel ((c :: cs).drop n) ((c :: cs).take n).getLast?
    | none => findallF re fuel cs (some c)

/-- Python `pattern.findall(s)` (for patterns without capture groups). -/
def findall (re : RE) (s : String) : List String :=
  (findallF re s.data.length s.data none).map String.mk

/-- Python `re.search(pattern, s) is not None`. -/
def searchAux (re : RE) : List Char → Option Char → Bool
  | [], pr => (matchLen re [] pr).isSome
  | c :: cs, pr => (matchLen re (c :: cs) pr).isSome || searchAux re cs (some c)

/-- Python `re.search` as a Boolean test. -/
def reSearch (re : RE) (s : String) : Bool := searchAux re s.data none

/-- Python `re.sub(pattern, repl, s)` with a literal replacement. -/
def subF (re : RE) (repl : List Char) : Nat → List Char → Option Char → List Char
  | 0, s, _ => s
  | _, [], _ => []
  | fuel + 1, c :: cs, pr =>
    match matchLen re (c :: cs) pr with
    | some n =>
      if n = 0 then c :: subF re repl fuel cs (some c)
      else repl ++ subF re repl fuel ((c :: cs).drop n) ((c :: cs).take n).getLast?
    | none => c :: subF re repl fuel cs (some c)

/-- Python `re.sub` for strings. -/
def reSub (re : RE) (repl : String) (s : String) : String :=
  String.mk (subF re repl.data s.data.length s.data none)

/-- Literal character. -/
def lit (c : Char) : RE := .cls (fun x => x = c)

/-- Case-insensitive literal character (`re.IGNORECASE` on ASCII). -/
def litci (c : Char) : RE := .cls (fun x => lowChar x = lowChar c)

/-- Literal string. -/
def reStr (s : String) : RE := s.data.foldr (fun c r => .seq (lit c) r) .eps

/-- Case-insensitive literal string. -/
def reStrci (s : String) : RE := s.data.foldr (fun c r => .seq (litci c) r) .eps

/-- Python `\d`. -/
def digitRE : RE := .cls isAsciiDigit

/-- Python `\s`. -/
def wsRE : RE := .cls isPySpace

/-- Suffix `?` (one or zero, preferring one). -/
def optRE (r : RE) : RE := .alt r .eps

/-- Sequence of regexes. -/
def reSeq (l : List RE) : RE := l.foldr .seq .eps

/-- Character range `[a-b]`. -/
def rng (a b : Char) : RE := .cls (fun c => a ≤ c && c ≤ b)

/-- `r{k}`: exactly `k` copies. -/
def repExact : Nat → RE → RE
  | 0, _ => .eps
  | k + 1, r => .seq r (repExact k r)

/-- Helper for `repRange`: counts `m + k + 1` down to `m`. -/
def repRangeAux (m : Nat) (r : RE) : Nat → RE
  | 0 => repExact m r
  | k + 1 => .alt (repExact (m + k + 1) r) (repRangeAux m r k)

/-- Greedy bounded repetition `r{m,n}` (tries `n` copies first). -/
def repRange (m n : Nat) (r : RE) : RE := repRangeAux m r (n - m)

/-- `[p]+` for a character class: one, then greedy star. -/
def plusCls (p : Char → Bool) : RE := .seq (.cls p) (.starCls p)

/-! ## Compiled regex patterns of `contact_extractor._setup_regex_patterns`

Each definition translates one compiled pattern of the source, constructor
by constructor.  `re.IGNORECASE` on the phone patterns is immaterial (no
letters occur); on the social patterns it is modelled with
case-insensitive literals. -/

/-- The shared area-code alternation `(?:1[1-9]\d{1,2}|2[0-9]|3[0-9])`. -/
def ukAreaAlt : RE :=
  .alt (reSeq [lit '1', rng '1' '9', repRange 1 2 digitRE])
    (.alt (reSeq [lit '2', rng '0' '9']) (reSeq [lit '3', rng '0' '9']))

/-- UK landline: `\b0(?:1[1-9]\d{1,2}|2[0-9]|3[0-9])\s?\d{3,4}\s?\d{3,4}\b`. -/
def phonePat1 : RE :=
  reSeq [.wordB, lit '0', ukAreaAlt, optRE wsRE, repRange 3 4 digitRE,
    optRE wsRE, repRange 3 4 digitRE, .wordB]

/-- UK mobile: `\b(?:\+44\s?7|07)[0-9]{3}\s?\d{3}\s?\d{3}\b`. -/
def phonePat2 : RE :=
  reSeq [.wordB,
    .alt (reSeq [lit '+', reStr "44", optRE wsRE, lit '7']) (reStr "07"),
    repExact 3 (rng '0' '9'), optRE wsRE, repExact 3 digitRE, optRE wsRE,
    repExact 3 digitRE, .wordB]

/-- UK freephone: `\b0(?:800|808)\s?\d{3}\s?\d{4}\b`. -/
def phonePat3 : RE :=
  reSeq [.wordB, lit '0', .alt (reStr "800") (reStr "808"), optRE wsRE,
    repExact 3 digitRE, optRE wsRE, repExact 4 digitRE, .wordB]

/-- UK service numbers: `\b0(?:845|870|871|872|873)\s?\d{3}\s?\d{4}\b`. -/
def phonePat4 : RE :=
  reSeq [.wordB, lit '0',
    .alt (reStr "845") (.alt (reStr "870") (.alt (reStr "871") (.alt (reStr "872") (reStr "873")))),
    optRE wsRE, repExact 3 digitRE, optRE wsRE, repExact 4 digitRE, .wordB]

/-- UK premium rate: `\b09[0-9]{2}\s?\d{3}\s?\d{4}\b`. -/
def phonePat5 : RE :=
  reSeq [.wordB, reStr "09", repExact 2 (rng '0' '9'), optRE wsRE,
    repExact 3 digitRE, optRE wsRE, repExact 4 digitRE, .wordB]

/-- International: `\+44\s?(?:1[1-9]\d{1,2}|2[0-9]|3[0-9]|7[0-9]{3})\s?\d{3,4}\s?\d{3,4}\b`. -/
def phonePat6 : RE :=
  reSeq [reStr "+44", optRE wsRE,
    .alt ukAreaAlt (reSeq [lit '7', repExact 3 (rng '0' '9')]),
    optRE wsRE, repRange 3 4 digitRE, optRE wsRE, repRange 3 4 digitRE, .wordB]

/-- Bracketed: `\(0(?:1[1-9]\d{1,2}|2[0-9]|3[0-9])\)\s?\d{3,4}\s?\d{3,4}\b`. -/
def phonePat7 : RE :=
  reSeq [lit '(', lit '0', ukAreaAlt, lit ')', optRE wsRE,
    repRange 3 4 digitRE, optRE wsRE, repRange 3 4 digitRE, .wordB]

/-- Dashed: `\b0(?:1[1-9]\d{1,2}|2[0-9]|3[0-9])-\d{3,4}-\d{3,4}\b`. -/
def phonePat8 : RE :=
  reSeq [.wordB, lit '0', ukAreaAlt, lit '-', repRange 3 4 digitRE,
    lit '-', repRange 3 4 digitRE, .wordB]

/-- The list `self.phone_patterns`, in source order. -/
def phonePatterns : List RE :=
  [phonePat1, phonePat2, phonePat3, phonePat4, phonePat5, phonePat6, phonePat7, phonePat8]

/-- Local part class `[A-Za-z0-9._%+-]`. -/
def emailLocalCls (c : Char) : Bool :=
  isAsciiAlpha c || isAsciiDigit c || c = '.' || c = '_' || c = '%' || c = '+' || c = '-'

/-- Domain class `[A-Za-z0-9.-]`. -/
def emailDomCls (c : Char) : Bool := isAsciiAlpha c || isAsciiDigit c || c = '.' || c = '-'

/-- TLD class `[A-Z|a-z]` (the source class literally contains a pipe). -/
def emailTldCls (c : Char) : Bool := isAsciiAlpha c || c = '|'

/-- Email pattern `\b[A-Za-z0-9._%+-]+@[A-Za-z0-9.-]+\.[A-Z|a-z]{2,}\b`. -/
def emailPat : RE :=
  reSeq [.wordB, plusCls emailLocalCls, lit '@', plusCls emailDomCls, lit '.',
    .cls emailTldCls, .cls emailTldCls, .starCls emailTldCls, .wordB]

/-- Profile-name class `[A-Za-z0-9._-]`. -/
def socialNameCls (c : Char) : Bool := isAsciiAlpha c || isAsciiDigit c || c = '.' || c = '_' || c = '-'

/-- Optional scheme `(?:https?://)?`. -/
def httpOptRE : RE := optRE (reSeq [reStrci "http", optRE (litci 's'), reStr "://"])

/-- Optional `(?:www\.)?`. -/
def wwwOptRE : RE := optRE (reSeq [litci 'w', litci 'w', litci 'w', lit '.'])

/-- Facebook pattern `(?:https?://)?(?:www\.)?facebook\.com/[A-Za-z0-9._-]+`. -/
def facebookPat : RE := reSeq [httpOptRE, wwwOptRE, reStrci "facebook.com/", plusCls socialNameCls]

/-- Instagram pattern `(?:https?://)?(?:www\.)?instagram\.com/[A-Za-z0-9._-]+`. -/
def instagramPat : RE := reSeq [httpOptRE, wwwOptRE, reStrci "instagram.com/", plusCls socialNameCls]

/-- LinkedIn pattern `(?:https?://)?(?:www\.)?linkedin\.com/(?:in|company)/[A-Za-z0-9._-]+`. -/
def linkedinPat : RE :=
  reSeq [httpOptRE, wwwOptRE, reStrci "linkedin.com/",
    .alt (reStrci "in") (reStrci "company"), lit '/', plusCls socialNameCls]

/-! ## Embedding of `vat_lookup.py`

`VATLookupClient` scrapes `vat-lookup.co.uk`.  The HTTP layer and the
BeautifulSoup table parsing are oracles:

* one outbound request yields a `VatResponse` — `netFail` models a failed
  request (`_make_search_request` returning `None`), the other
  constructors model the four outcomes of `_detect_response_type`;
* a `results_found` response carries the table rows as `VatRow`s, where
  each field is the `get_text(strip=True)` of the corresponding cell (for
  a `<tr>` with fewer than four `<td>`s, or without an `<a>` in the VAT
  cell, the source skips the row or reads an empty VAT string — both are
  represented by `vat_number := ""`, which the source filters identically).

`lookup_vat_by_company_name` consumes one response per request, in order;
the response sequence is the oracle input. -/

/-- A parsed row of the VAT results table (cell texts via
`get_text(strip=True)`, hence carrying no leading/trailing whitespace). -/
structure VatRow where
  company_name : String
  trade_name : String
  vat_number : String
  company_id : String
deriving DecidableEq, Repr

/-- One classified response of the VAT service, as seen through
`_make_search_request` plus `_detect_response_type`. -/
inductive VatResponse where
  | netFail : VatResponse
  | softBlock : VatResponse
  | notFound : VatResponse
  | resultsFound (rows : List VatRow) : VatResponse
  | unknown : VatResponse
deriving DecidableEq, Repr

/-- Result record `VATData` (the `extraction_timestamp` field, a wall-clock
reading, is omitted from the model). -/
structure VATData where
  company_name : String
  search_terms : List String
  vat_number : String
  search_status : String
  processing_notes : String
  proxy_used : String
deriving DecidableEq, Repr

/-- `VATData.is_success`. -/
def VATData.is_success (d : VATData) : Bool := d.search_status = "SUCCESS"

/-- The transformation table of `_sanitize_company_name`, in source order:
each entry is a compiled pattern and its literal replacement. -/
def vatTransformations : List (RE × String) :=
  [ (reSeq [.starCls isPySpace, lit '&', .starCls isPySpace, reStr "CO.",
      .starCls isPySpace, reStr "LTD", .starCls isPySpace, .eos], " & COMPANY LIMITED"),
    (reSeq [.starCls isPySpace, lit '&', .starCls isPySpace, reStr "CO",
      .starCls isPySpace, reStr "LTD", .starCls isPySpace, .eos], " & COMPANY LIMITED"),
    (reSeq [.starCls isPySpace, lit '&', .starCls isPySpace, reStr "CO.",
      .starCls isPySpace, .eos], " & COMPANY"),
    (reSeq [.starCls isPySpace, lit '&', .starCls isPySpace, reStr "CO",
      .starCls isPySpace, .eos], " & COMPANY"),
    (reSeq [.wordB, reStr "LTD.", .starCls isPySpace, .eos], "LIMITED"),
    (reSeq [.wordB, reStr "LTD", .starCls isPySpace, .eos], "LIMITED"),
    (reSeq [.wordB, reStr "CO.", .starCls isPySpace, .eos], "COMPANY"),
    (reSeq [.wordB, reStr "CO", .starCls isPySpace, .eos], "COMPANY"),
    (reSeq [.wordB, reStr "CORP.", .starCls isPySpace, .eos], "CORPORATION"),
    (reSeq [.wordB, reStr "CORP", .starCls isPySpace, .eos], "CORPORATION"),
    (reSeq [.wordB, reStr "INC.", .starCls isPySpace, .eos], "INCORPORATED"),
    (reSeq [.wordB, reStr "INC", .starCls isPySpace, .eos], "INCORPORATED"),
    (reSeq [.wordB, reStr "SVCS", .wordB], "SERVICES"),
    (reSeq [.wordB, reStr "SVC", .wordB], "SERVICE"),
    (reSeq [.wordB, reStr "GRP", .wordB], "GROUP"),
    (reSeq [.wordB, reStr "HLDG", optRE (lit 'S'), .wordB], "HOLDINGS"),
    (reSeq [.wordB, reStr "MGMT", .wordB], "MANAGEMENT"),
    (reSeq [.wordB, reStr "MGT", .wordB], "MANAGEMENT"),
    (reSeq [.wordB, reStr "TECH", .wordB], "TECHNOLOGY"),
    (reSeq [.wordB, reStr "SYS", .wordB], "SYSTEMS") ]

/-- The transformation loop of `_sanitize_company_name`: threads
`current_name` through the table, appending each fresh transform. -/
def applyVatTransforms : List (RE × String) → List String → String → List String × String
  | [], vars, current => (vars, current)
  | (pat, repl) :: rest, vars, current =>
    if reSearch pat current then
      let transformed := pyStrip (reSub pat repl current)
      let vars2 :=
        if transformed ≠ current ∧ transformed ∉ vars then vars ++ [transformed] else vars
      applyVatTransforms rest vars2 transformed
    else applyVatTransforms rest vars current

/-- `_sanitize_company_name`: ordered search variations for a company name. -/
def sanitizeCompanyName (company_name : String) : List String :=
  if pyStrip company_name = "" then []
  else
    let original := pyStrip company_name
    let (variations, _) := applyVatTransforms vatTransformations [original] (pyUpper original)
    dedupFirst variations

/-- `_validate_vat_format`: `re.match(r'^GB\d{9}$', vat.upper().replace(' ', ''))`.
The subjects in scope are stripped cell texts, so they cannot end in the
lone trailing newline that Python's `$` would additionally admit; the
anchor is therefore modelled as end-of-string. -/
def validateVatFormat (vat_number : String) : Bool :=
  if vat_number = "" then false
  else
    let s := (pyUpper vat_number).data.filter (fun c => c ≠ ' ')
    s.length = 11 && "GB".data.isPrefixOf s && (s.drop 2).all isAsciiDigit

/-- The row filter of `_parse_vat_results`: rows with a non-empty,
format-valid VAT number. -/
def validVatRows (rows : List VatRow) : List VatRow :=
  rows.filter (fun r => r.vat_number ≠ "" && validateVatFormat r.vat_number)

/-- `_parse_vat_results`: single valid row is accepted; several valid rows
require an exact case-insensitive match of the search term against the
row's company name, else `None`. -/
def parseVatResults (rows : List VatRow) (search_term : String) : Option VatRow :=
  let results := validVatRows rows
  if results = [] then none
  else if results.length = 1 then results.head?
  else
    let search_upper := pyStrip (pyUpper search_term)
    results.find? (fun r => pyStrip (pyUpper r.company_name) = search_upper)

/-- `max_retries` of the client. -/
def vatMaxRetries : Nat := 3

/-- One search variation of the look-up loop: up to `attempts` requests,
each consuming the next oracle response.  Returns the parsed success row
(if any) and the remaining response sequence.  Mirrors the inner
`for attempt in range(self.max_retries)` loop: net failures and soft
blocks retry while attempts remain, `not_found` / `unknown` / a parse
miss abandon the variation.  An exhausted oracle sequence behaves as
failing requests (a real run always receives some response). -/
def vatTryVariation (term : String) : Nat → List VatResponse → Option VatRow × List VatResponse
  | 0, rs => (none, rs)
  | _ + 1, [] => ((none : Option VatRow), ([] : List VatResponse))
  | attempts + 1, r :: rs =>
    match r with
    | .netFail => if attempts = 0 then (none, rs) else vatTryVariation term attempts rs
    | .softBlock => if attempts = 0 then (none, rs) else vatTryVariation term attempts rs
    | .notFound => (none, rs)
    | .resultsFound rows => (parseVatResults rows term, rs)
    | .unknown => (none, rs)

/-- Success record built at the `results_found` branch of the main loop. -/
def vatSuccessRecord (original_name : String) (variations : List String) (idx : Nat)
    (row : VatRow) (term proxy : String) : VATData :=
  { company_name := original_name
    search_terms := variations.take (idx + 1)
    vat_number := row.vat_number
    search_status := "SUCCESS"
    processing_notes := "Successfully found VAT number " ++ row.vat_number
      ++ " using search term " ++ term
    proxy_used := proxy }

/-- `_create_error_record`. -/
def vatErrorRecord (company_name : String) (search_terms : List String)
    (status message proxy : String) : VATData :=
  { company_name := company_name
    search_terms := search_terms
    vat_number := "NOT_FOUND"
    search_status := status
    processing_notes := message
    proxy_used := proxy }

/-- The outer `for variation_index, search_term in enumerate(...)` loop of
`lookup_vat_by_company_name`. -/
def vatLookupLoop (original_name : String) (allVars : List String) (proxy : String) :
    List String → Nat → List VatResponse → VATData
  | [], _, _ =>
    vatErrorRecord original_name allVars "VAT_NOT_FOUND"
      ("No VAT registration found after trying " ++ toString allVars.length
        ++ " search variations") proxy
  | term :: rest, idx, rs =>
    match vatTryVariation term vatMaxRetries rs with
    | (some row, _) => vatSuccessRecord original_name allVars idx row term proxy
    | (none, rs2) => vatLookupLoop original_name allVars proxy rest (idx + 1) rs2

/-- `lookup_vat_by_company_name`, with the oracle response sequence as
explicit input (one entry per outbound request, in order). -/
def lookupVatByCompanyName (company_name : String) (proxy : String)
    (responses : List VatResponse) : VATData :=
  if pyStrip company_name = "" then
    vatErrorRecord "" [] "INVALID_COMPANY_NAME" "Company name cannot be empty" proxy
  else
    let original_name := pyStrip company_name
    let search_variations := sanitizeCompanyName original_name
    if search_variations = [] then
      vatErrorRecord original_name [] "INVALID_COMPANY_NAME"
        "Could not generate valid search variations" proxy
    else vatLookupLoop original_name search_variations proxy search_variations 0 responses

/-! ## A model of `urllib.parse.urlparse` (netloc and path)

The source only ever reads `netloc` and `path` from parsed URLs.  For a
URL with an explicit `http://` / `https://` scheme, `netloc` extends to
the first `/`, `?` or `#` and `path` from there to the first `?` or `#`;
without such a scheme the whole text up to `?` / `#` is path and `netloc`
is empty.  (URLs in scope carry no `;params`, and scheme detection is
modelled case-sensitively, matching the `startswith(('http://', 'https://'))`
guards used by the source.) -/

/-- Remainder of the URL after an `http://` or `https://` scheme. -/
def urlAfterScheme (u : String) : Option (List Char) :=
  if "http://".data.isPrefixOf u.data then some (u.data.drop 7)
  else if "https://".data.isPrefixOf u.data then some (u.data.drop 8)
  else none

/-- Character ending a netloc. -/
def isNetlocEnd (c : Char) : Bool := c = '/' || c = '?' || c = '#'

/-- Character ending a path. -/
def isPathEnd (c : Char) : Bool := c = '?' || c = '#'

/-- `urlparse(u).netloc`. -/
def urlNetloc (u : String) : String :=
  match urlAfterScheme u with
  | some rest => String.mk (rest.takeWhile (fun c => !(isNetlocEnd c)))
  | none => ""

/-- `urlparse(u).path`. -/
def urlPath (u : String) : String :=
  match urlAfterScheme u with
  | some rest =>
    String.mk (((rest.dropWhile (fun c => !(isNetlocEnd c)))).takeWhile (fun c => !(isPathEnd c)))
  | none => String.mk (u.data.takeWhile (fun c => !(isPathEnd c)))

/-! ## Embedding of `website_hunter_api.py` (domain extraction)

`_extract_base_domain` and `_extract_websites_from_results`; the input is
the list of `url` fields of the organic search results. -/

/-- `_extract_base_domain`. -/
def extractBaseDomain (url : String) : Option String :=
  if ¬ (strStarts url "http://" ∨ strStarts url "https://") then none
  else
    let domain := pyLower (urlNetloc url)
    let domain := if strStarts domain "www." then strDrop domain 4 else domain
    if ¬ strHas domain "." ∨ strLen domain < 3 then none
    else some domain

/-- `_extract_websites_from_results`: unique base domains, first-seen order. -/
def extractWebsitesFromResults (urls : List String) : List String :=
  urls.foldl (fun acc url =>
    if url ≠ "" then
      match extractBaseDomain url with
      | some d => if d ≠ "" then insertNew acc d else acc
      | none => acc
    else acc) []

/-! ## Embedding of `website_crawler_v3.py`

The HTTP fetch is an oracle `String → Option String` sending a page URL to
the text content produced by `_extract_text_content` for a 200 response,
and `none` for a request error or non-200 status (both are skipped
identically by the source).  Link discovery (`_extract_all_links`) ends in
`list(set(all_links))`, whose order CPython leaves unspecified: the crawl
is therefore modelled over an arbitrary link list, so every theorem below
covers every possible set order.  Float scores (`1.0`, `0.75`, `2.0`) are
exact binary rationals and are modelled in `ℚ`; numeric note formatting
is elided from `processing_notes`. -/

/-- `PageType`. -/
inductive PageType where
  | TARGET : PageType
  | NON_TARGET : PageType
deriving DecidableEq, Repr

/-- `PrecisionMatch`. -/
structure PrecisionMatch where
  identifier : String
  found : Bool
  page_type : Option PageType
  page_url : Option String
  score_weight : ℚ
deriving DecidableEq, Repr

/-- `PrecisionMatch.set_match`. -/
def PrecisionMatch.setMatch (m : PrecisionMatch) (pt : PageType) (url : String) : PrecisionMatch :=
  { m with
    found := true
    page_type := some pt
    page_url := some url
    score_weight := if pt = .TARGET then 1 else 3/4 }

/-- A fresh not-found match (the `PrecisionMatch(ident, False)` constructor
call with the dataclass defaults). -/
def initMatch (ident : String) : PrecisionMatch :=
  { identifier := ident
    found := false
    page_type := none
    page_url := none
    score_weight := 0 }

/-- `WebsiteScoreV3` (timestamp and the constant `max_possible_score = 2.0`
field omitted). -/
structure WebsiteScoreV3 where
  domain : String
  total_score : ℚ
  company_number_match : PrecisionMatch
  vat_number_match : PrecisionMatch
  pages_crawled : Nat
  target_pages_crawled : Nat
  non_target_pages_crawled : Nat
  crawl_status : String
  processing_notes : String
  search_phases_completed : List String
deriving DecidableEq, Repr

/-- The two identifiers read from `company_data` (`dict.get` yields `none`
when the key is absent). -/
structure CompanyData where
  company_number : Option String
  vat_number : Option String
deriving DecidableEq, Repr

/-- `CrawlConfigV3` (network timing fields omitted). -/
structure CrawlConfigV3 where
  max_target_pages : Nat := 6
  max_additional_pages : Nat := 10
  target_page_keywords : List String :=
    ["about", "contact", "privacy", "terms", "legal", "disclaimer",
     "cookie", "policy", "company", "information"]

/-- `_normalize_text` of the crawler: uppercase and remove all whitespace
(`re.sub(r'\s+', '', text.strip().upper())`). -/
def normalizeTextV3 (text : String) : String :=
  String.mk ((pyUpper (pyStrip text)).data.filter (fun c => !(isPySpace c)))

/-- `_check_exact_matches`: exact substring matches of the normalized
company number and VAT number (the latter also with the `GB` prefix
removed) in the normalized page text.  Empty identifier strings are falsy
in the source guards. -/
def checkExactMatches (text : String) (d : CompanyData) : Bool × Bool :=
  let content := normalizeTextV3 text
  let companyFound :=
    match d.company_number with
    | none => false
    | some cn =>
      cn ≠ "" &&
        (let n := normalizeTextV3 cn
         n ≠ "" && strHas content n)
  let vatFound :=
    match d.vat_number with
    | none => false
    | some v =>
      v ≠ "" &&
        (let nf := normalizeTextV3 v
         let numeric := if "GB".data.isPrefixOf nf.data then strDrop nf 2 else nf
         (nf ≠ "" && strHas content nf) ||
           (numeric ≠ "" && numeric ≠ nf && strHas content numeric))
  (companyFound, vatFound)

/-- `_categorize_pages`: split links into target and non-target by keyword
membership in the lowercased URL path. -/
def categorizePages (keywords : List String) (links : List String) : List String × List String :=
  links.partition (fun url => keywords.any (fun k => strHas (pyLower (urlPath url)) k))

/-- One phase of `_crawl_pages_phase`, with accumulators mirroring the
source loop; additionally logs every URL for which a GET was issued. -/
def crawlPhaseAux (fetch : String → Option String) (pt : PageType) (d : CompanyData)
    (maxPages : Nat) :
    List String → PrecisionMatch → PrecisionMatch → Nat → List String →
      PrecisionMatch × PrecisionMatch × Nat × List String
  | [], cm, vm, n, log => (cm, vm, n, log)
  | url :: rest, cm, vm, n, log =>
    if n ≥ maxPages then (cm, vm, n, log)
    else if cm.found ∧ vm.found then (cm, vm, n, log)
    else
      match fetch url with
      | none => crawlPhaseAux fetch pt d maxPages rest cm vm n (log ++ [url])
      | some text =>
        let pm := checkExactMatches text d
        let cm2 := if pm.1 ∧ ¬ cm.found then cm.setMatch pt url else cm
        let vm2 := if pm.2 ∧ ¬ vm.found then vm.setMatch pt url else vm
        crawlPhaseAux fetch pt d maxPages rest cm2 vm2 (n + 1) (log ++ [url])

/-- `_crawl_pages_phase` (pages pre-limited with `pages[:max_pages]` as in
the source). -/
def crawlPagesPhase (fetch : String → Option String) (pages : List String) (pt : PageType)
    (d : CompanyData) (maxPages : Nat) : PrecisionMatch × PrecisionMatch × Nat × List String :=
  crawlPhaseAux fetch pt d maxPages (pages.take maxPages)
    (initMatch "company_number") (initMatch "vat_number") 0 []

/-- Model-level request trace of one `_crawl_single_website` run. -/
structure CrawlTrace where
  phase1_requests : List String
  phase2_requests : List String
deriving DecidableEq, Repr

/-- `_create_error_result`. -/
def crawlErrorResult (domain message : String) : WebsiteScoreV3 :=
  { domain := domain
    total_score := 0
    company_number_match := initMatch "company_number"
    vat_number_match := initMatch "vat_number"
    pages_crawled := 0
    target_pages_crawled := 0
    non_target_pages_crawled := 0
    crawl_status := "CRAWL_ERROR"
    processing_notes := message
    search_phases_completed := [] }

/-- `_crawl_single_website`, over the fetch oracle and the (set-ordered)
link list produced by `_extract_all_links`, together with the request
trace of both phases. -/
def crawlSingleWebsiteT (fetch : String → Option String) (cfg : CrawlConfigV3)
    (domain : String) (links : List String) (d : CompanyData) : WebsiteScoreV3 × CrawlTrace :=
  if links = [] then (crawlErrorResult domain "No links found on website", ⟨[], []⟩)
  else
    let cat := categorizePages cfg.target_page_keywords links
    let target_pages := cat.1
    let non_target_pages := cat.2
    let p1 :=
      if target_pages ≠ [] then
        crawlPagesPhase fetch target_pages .TARGET d cfg.max_target_pages
      else (initMatch "company_number", initMatch "vat_number", 0, [])
    let cm1 := if target_pages ≠ [] ∧ p1.1.found then p1.1 else initMatch "company_number"
    let vm1 := if target_pages ≠ [] ∧ p1.2.1.found then p1.2.1 else initMatch "vat_number"
    let target_crawled := if target_pages ≠ [] then p1.2.2.1 else 0
    let phases1 : List String :=
      if target_pages ≠ [] then ["Phase 1: Target pages"] else []
    let doPhase2 := ¬ (cm1.found ∧ vm1.found) ∧ non_target_pages ≠ []
    let p2 :=
      if doPhase2 then
        crawlPagesPhase fetch non_target_pages .NON_TARGET d cfg.max_additional_pages
      else (initMatch "company_number", initMatch "vat_number", 0, [])
    let cm2 := if doPhase2 ∧ p2.1.found ∧ ¬ cm1.found then p2.1 else cm1
    let vm2 := if doPhase2 ∧ p2.2.1.found ∧ ¬ vm1.found then p2.2.1 else vm1
    let non_target_crawled := if doPhase2 then p2.2.2.1 else 0
    let phases :=
      phases1 ++ (if doPhase2 then ["Phase 2: Additional pages"] else [])
    let total_score : ℚ :=
      (if cm2.found then cm2.score_weight else 0) + (if vm2.found then vm2.score_weight else 0)
    let status := if total_score > 0 then "SUCCESS" else "NO_MATCHES_FOUND"
    let notes :=
      if total_score > 0 then "Found precision score matches"
      else "No exact matches found"
    ({ domain := domain
       total_score := total_score
       company_number_match := cm2
       vat_number_match := vm2
       pages_crawled := target_crawled + non_target_crawled
       target_pages_crawled := target_crawled
       non_target_pages_crawled := non_target_crawled
       crawl_status := status
       processing_notes := notes
       search_phases_completed := phases },
     ⟨if target_pages ≠ [] then p1.2.2.2 else [],
      if doPhase2 then p2.2.2.2 else []⟩)

/-- `_crawl_single_website` without the model-level trace. -/
def crawlSingleWebsite (fetch : String → Option String) (cfg : CrawlConfigV3)
    (domain : String) (links : List String) (d : CompanyData) : WebsiteScoreV3 :=
  (crawlSingleWebsiteT fetch cfg domain links d).1

/-! ## Embedding of `linkedin_finder.py` (scoring and classification)

`_score_linkedin_result` and `_process_zenserp_results`.  The input is the
list of organic ZenSERP results (url / title / description / position
fields read with `dict.get` defaults). -/

/-- One organic search result as read by `_process_zenserp_results`. -/
structure SerpResult where
  url : String
  title : String
  description : String
  position : Int
deriving DecidableEq, Repr

/-- `LinkedInResult`. -/
structure LinkedInResult where
  url : String
  title : String
  description : String
  position : Int
  score : Nat
  match_details : String
deriving DecidableEq, Repr

/-- `LinkedInResult.is_company_url`. -/
def LinkedInResult.is_company_url (r : LinkedInResult) : Bool :=
  strHas (pyLower r.url) "/company/"

/-- `LinkedInResult.is_employee_url`. -/
def LinkedInResult.is_employee_url (r : LinkedInResult) : Bool :=
  strHas (pyLower r.url) "/in/"

/-- `_extract_domain_from_website` (its `except` branch is unreachable in
the model, so the result is always `some`). -/
def extractDomainFromWebsite (website : String) : Option String :=
  let w :=
    if ¬ (strStarts website "http://" ∨ strStarts website "https://") then
      "https://" ++ website
    else website
  let d := pyLower (urlNetloc w)
  some (if strStarts d "www." then strDrop d 4 else d)

/-- Join a list of strings with a separator (`"; ".join`). -/
def joinSep (sep : String) : List String → String
  | [] => ""
  | [x] => x
  | x :: y :: rest => x ++ sep ++ joinSep sep (y :: rest)

/-- `_score_linkedin_result`: +1 for the lowercased company name in the
lowercased description, +2 for the verified domain in the description. -/
def scoreLinkedInResult (company_name : String) (website : Option String)
    (r : SerpResult) : Nat × String :=
  let description := pyLower r.description
  let company_lower := pyLower company_name
  let base : Nat × List String :=
    if strHas description company_lower then (1, ["CompanyName(Desc)"]) else (0, [])
  let scored : Nat × List String :=
    match website with
    | none => base
    | some w =>
      if w = "" then base
      else
        match extractDomainFromWebsite w with
        | none => base
        | some domain =>
          if domain ≠ "" && strHas description domain then
            (base.1 + 2, base.2 ++ ["Domain(Desc:+2)"])
          else base
  (scored.1, if scored.2 = [] then "No matches" else joinSep "; " scored.2)

/-- Stable descending insertion by score (Python's stable
`list.sort(key=lambda x: x.score, reverse=True)`). -/
def insDescByScore (x : LinkedInResult) : List LinkedInResult → List LinkedInResult
  | [] => [x]
  | y :: ys => if x.score > y.score then x :: y :: ys else y :: insDescByScore x ys

/-- Stable descending sort by score. -/
def sortDescByScore (l : List LinkedInResult) : List LinkedInResult :=
  l.foldr insDescByScore []

/-- The accumulation loop of `_process_zenserp_results`. -/
def processZenserpAux (company_name : String) (website : Option String) :
    List SerpResult → List LinkedInResult → List LinkedInResult →
      List LinkedInResult × List LinkedInResult
  | [], cs, es => (cs, es)
  | r :: rest, cs, es =>
    if ¬ strHas (pyLower r.url) "linkedin.com" then
      processZenserpAux company_name website rest cs es
    else
      let sm := scoreLinkedInResult company_name website r
      if sm.1 = 0 then processZenserpAux company_name website rest cs es
      else
        let lr : LinkedInResult :=
          { url := r.url
            title := r.title
            description := r.description
            position := r.position
            score := sm.1
            match_details := sm.2 }
        if lr.is_company_url then
          processZenserpAux company_name website rest (cs ++ [lr]) es
        else if lr.is_employee_url then
          processZenserpAux company_name website rest cs (es ++ [lr])
        else processZenserpAux company_name website rest cs es

/-- `_process_zenserp_results`: company and employee URL lists, each
sorted by score descending. -/
def processZenserpResults (organic : List SerpResult) (company_name : String)
    (website : Option String) : List LinkedInResult × List LinkedInResult :=
  let p := processZenserpAux company_name website organic [] []
  (sortDescByScore p.1, sortDescByScore p.2)

/-! ## Embedding of `contact_extractor.py`

The fetch oracle maps a URL to the page content for a 200 response
(`none` for request errors and non-200 statuses, which the source skips
identically); a page supplies the raw HTML and the text that
`_extract_text_content` (BeautifulSoup) extracts from it.  The anchor
oracle models `_extract_links_from_homepage`'s BeautifulSoup anchor
scan plus `urljoin`: the absolute URLs of the homepage's `<a href>`
links. -/

/-- A fetched page: raw HTML and its BeautifulSoup-extracted text. -/
structure Webpage where
  html : String
  text : String

/-- The web oracle for contact extraction. -/
structure ContactWeb where
  fetch : String → Option Webpage
  anchors : String → List String

/-- `ContactCrawlConfig` (network timing fields omitted). -/
structure ContactCrawlConfig where
  max_pages_per_site : Nat := 15
  max_phone_numbers : Nat := 10
  max_email_addresses : Nat := 10
  max_social_links_per_platform : Nat := 5

/-- `ContactInformation` (timestamp omitted). -/
structure ContactInformation where
  domain : String
  phone_numbers : List String
  email_addresses : List String
  facebook_links : List String
  instagram_links : List String
  linkedin_links : List String
  pages_crawled : Nat
  pages_with_contact_info : List String
  extraction_status : String
  processing_notes : String
deriving DecidableEq, Repr

/-- The six documented UK test numbers of `_extract_phone_numbers`. -/
def ukTestNumbers : List String :=
  ["01234567890", "02079460000", "01214960000", "07700900000", "08001111111", "09999999999"]

/-- Characters kept by `re.sub(r'[^\d+\s()-]', '', ...)`. -/
def phoneKeepCls (c : Char) : Bool :=
  isAsciiDigit c || c = '+' || isPySpace c || c = '(' || c = ')' || c = '-'

/-- `re.sub(r'[^\d]', '', s)`: the digit string of a candidate. -/
def digitsOnly (s : String) : String := String.mk (s.data.filter isAsciiDigit)

/-- `_is_valid_uk_number` (operating on the digit string; `+44` is first
normalized to a leading `0`). -/
def isValidUkNumber (digits : String) : Bool :=
  let d := if strStarts digits "44" then String.mk ('0' :: digits.data.drop 2) else digits
  if d.data.length ≠ 10 ∧ d.data.length ≠ 11 then false
  else if ¬ strStarts d "0" then false
  else
    (d.data.length = 11 && (strStarts d "07" || strStarts d "01")) ||
    (d.data.length = 10 &&
      (strStarts d "02" ||
        ["012", "013", "014", "015", "016", "019"].any (fun p => strStarts d p))) ||
    (d.data.length = 11 &&
      (strStarts d "020" ||
        ["0121", "0131", "0141", "0151", "0161", "0191"].any (fun p => strStarts d p) ||
        strStarts d "01" || strStarts d "0800" || strStarts d "0808" ||
        ["0845", "0870", "0871", "0872", "0873"].any (fun p => strStarts d p) ||
        strStarts d "09")) ||
    (d.data.length = 10 &&
      (strStarts d "0800" || strStarts d "0808" ||
        ["0845", "0870", "0871", "0872", "0873"].any (fun p => strStarts d p)))

/-- The per-candidate filter chain of `_extract_phone_numbers`: clean-up,
length check, test-number rejection, UK validation, repetition check. -/
def phoneCandidateFilter (m : String) : Option String :=
  let clean := String.mk ((pyStripL m.data).filter phoneKeepCls)
  let digits := digitsOnly clean
  if digits.data.length < 10 ∨ digits.data.length > 13 then none
  else if ukTestNumbers.any (fun t => strHas digits t) then none
  else if ¬ isValidUkNumber digits then none
  else if (distinctChars digits).length < 3 ∧ digits.data.length > 8 then none
  else if clean = "" then none
  else some clean

/-- `_extract_phone_numbers` (the set accumulation over text then HTML,
patterns in order, is flattened to first-insertion order; `list(set)[:n]`
is the cap). -/
def extractPhoneNumbers (cfg : ContactCrawlConfig) (text html : String) : List String :=
  let candidates := ([text, html].filter (fun c => c ≠ "")).flatMap (fun content =>
    phonePatterns.flatMap (fun pat => (findall pat content).filterMap phoneCandidateFilter))
  (dedupFirst candidates).take cfg.max_phone_numbers

/-- The placeholder-domain exclusions of `_extract_email_addresses`. -/
def emailExclusions : List String :=
  ["example.com", "test.com", "dummy.com", "placeholder",
   "yourname@", "name@domain", "@example", "noreply@"]

/-- `_extract_email_addresses`. -/
def extractEmailAddresses (cfg : ContactCrawlConfig) (text html : String) : List String :=
  let candidates := ([text, html].filter (fun c => c ≠ "")).flatMap (fun content =>
    (findall emailPat content).filterMap (fun m =>
      let email := pyStrip (pyLower m)
      if emailExclusions.any (fun e => strHas email e) then none else some email))
  (dedupFirst candidates).take cfg.max_email_addresses

/-- The generic-path exclusions of `_extract_social_media_links`. -/
def socialExclusions : List String :=
  ["/sharer/", "/share?", "/login", "/signup", "/home",
   "facebook.com/pages", "facebook.com/pg"]

/-- One platform of `_extract_social_media_links`. -/
def extractSocialLinks (cfg : ContactCrawlConfig) (text html : String) (pat : RE) : List String :=
  let candidates := ([text, html].filter (fun c => c ≠ "")).flatMap (fun content =>
    (findall pat content).filterMap (fun m =>
      let url := pyStrip m
      let url := if ¬ strStarts url "http" then "https://" ++ url else url
      if socialExclusions.any (fun e => strHas (pyLower url) e) then none else some url))
  (dedupFirst candidates).take cfg.max_social_links_per_platform

/-- The contact/legal keyword set of `_filter_contact_relevant_links`. -/
def contactAllKeywords : List String :=
  ["contact", "about", "team", "staff", "office", "location",
   "phone", "email", "reach", "touch", "connect", "support",
   "help", "customer", "service", "info", "information"] ++
  ["privacy", "terms", "legal", "policy", "cookies",
   "disclaimer", "imprint", "impressum"]

/-- `_filter_contact_relevant_links`: same-domain links containing a
relevant keyword in path or full URL, deduplicated in order. -/
def filterContactRelevantLinks (domain : String) (all_links : List String) : List String :=
  let base := pyLower domain
  let filtered := all_links.filter (fun url =>
    let url_domain := pyLower (urlNetloc url)
    let url_domain := if strStarts url_domain "www." then strDrop url_domain 4 else url_domain
    url_domain = base &&
      (let url_path := pyLower (urlPath url)
       let url_full := pyLower url
       contactAllKeywords.any (fun k => strHas url_path k || strHas url_full k)))
  dedupFirst filtered

/-- `_extract_links_from_homepage`: anchors of the first homepage variant
that answers 200. -/
def extractLinksFromHomepage (web : ContactWeb) (domain : String) : List String :=
  match web.fetch ("https://" ++ domain) with
  | some pg => web.anchors pg.html
  | none =>
    match web.fetch ("http://" ++ domain) with
    | some pg => web.anchors pg.html
    | none => []

/-- `_find_contact_pages`: both homepage variants plus the filtered
contact links, capped at `max_pages_per_site`. -/
def findContactPages (cfg : ContactCrawlConfig) (web : ContactWeb) (domain : String) :
    List String :=
  let homepage_urls := ["https://" ++ domain, "http://" ++ domain]
  let all_links := extractLinksFromHomepage web domain
  let target_urls :=
    homepage_urls ++ (if all_links ≠ [] then filterContactRelevantLinks domain all_links else [])
  target_urls.take cfg.max_pages_per_site

/-- Mutable state of the crawl loop in `extract_contact_info`. -/
structure ContactAcc where
  phones : List String
  emails : List String
  fb : List String
  ig : List String
  li : List String
  pages_crawled : Nat
  pages_with_info : List String

/-- The page loop of `extract_contact_info`: per 200-page, extend the
accumulated lists with that page's (already per-page-capped) extractions. -/
def contactLoop (cfg : ContactCrawlConfig) (web : ContactWeb) :
    List String → ContactAcc → ContactAcc
  | [], acc => acc
  | url :: rest, acc =>
    if acc.pages_crawled ≥ cfg.max_pages_per_site then acc
    else
      match web.fetch url with
      | none => contactLoop cfg web rest acc
      | some pg =>
        let phones := extractPhoneNumbers cfg pg.text pg.html
        let emails := extractEmailAddresses cfg pg.text pg.html
        let fb := extractSocialLinks cfg pg.text pg.html facebookPat
        let ig := extractSocialLinks cfg pg.text pg.html instagramPat
        let li := extractSocialLinks cfg pg.text pg.html linkedinPat
        let had := phones ≠ [] ∨ emails ≠ [] ∨ fb ≠ [] ∨ ig ≠ [] ∨ li ≠ []
        contactLoop cfg web rest
          { phones := acc.phones ++ phones
            emails := acc.emails ++ emails
            fb := acc.fb ++ fb
            ig := acc.ig ++ ig
            li := acc.li ++ li
            pages_crawled := acc.pages_crawled + 1
            pages_with_info := if had then acc.pages_with_info ++ [url] else acc.pages_with_info }

/-- `extract_contact_info`: page discovery, crawl loop, final
deduplication (`list(set(...))`, with no further cap), status. -/
def extractContactInfo (cfg : ContactCrawlConfig) (web : ContactWeb) (domain : String) :
    ContactInformation :=
  let target_urls := findContactPages cfg web domain
  let unique_urls := dedupFirst target_urls
  let acc := contactLoop cfg web unique_urls ⟨[], [], [], [], [], 0, []⟩
  let phones := dedupFirst acc.phones
  let emails := dedupFirst acc.emails
  let fb := dedupFirst acc.fb
  let ig := dedupFirst acc.ig
  let li := dedupFirst acc.li
  let has := phones ≠ [] ∨ emails ≠ [] ∨ fb ≠ [] ∨ ig ≠ [] ∨ li ≠ []
  { domain := domain
    phone_numbers := phones
    email_addresses := emails
    facebook_links := fb
    instagram_links := ig
    linkedin_links := li
    pages_crawled := acc.pages_crawled
    pages_with_contact_info := acc.pages_with_info
    extraction_status := if has then "SUCCESS" else "NO_CONTACT_INFO_FOUND"
    processing_notes :=
      if has then "Successfully extracted contact items"
      else "No contact information found" }

/-! ## Claim-side definitions

Definitions phrased from the claims' words, to be compared with the
source-translated definitions above. -/

/-- The per-identifier weight asserted by claim C1: `1.0` for a match on a
TARGET page, `0.75` for a match on a NON_TARGET page, `0` when not found. -/
def pmClaimWeight (pm : PrecisionMatch) : ℚ :=
  if pm.found then (if pm.page_type = some PageType.TARGET then 1 else 3/4) else 0

/-- Invariant tying a `PrecisionMatch`'s weight to its page type. -/
def PMInv (pm : PrecisionMatch) : Prop :=
  (pm.found = true →
    (pm.page_type = some PageType.TARGET ∧ pm.score_weight = 1) ∨
    (pm.page_type = some PageType.NON_TARGET ∧ pm.score_weight = 3/4)) ∧
  (pm.found = false → pm.score_weight = 0)

/-- The literal property `^GB\d{9}$` asserted by claim C3 for the returned
string: the characters `G`, `B` followed by exactly nine digits. -/
def matchesGBNineDigits (s : String) : Bool :=
  s.data.length = 11 && "GB".data.isPrefixOf s.data && (s.data.drop 2).all isAsciiDigit

/-- The domain-extraction function as described by claim C7: the per-URL
base domains, in first-seen order with duplicates removed. -/
def specExtractDomains (urls : List String) : List String :=
  dedupFirst (urls.filterMap extractBaseDomain)

/-- The `44…` → `0…` normalization performed by `_is_valid_uk_number`,
exposed for stating claim C4's counterexample. -/
def plus44Normalize (digits : String) : String :=
  if strStarts digits "44" then String.mk ('0' :: digits.data.drop 2) else digits

/-- Scoring formula asserted by claim C8: `+1` when the lowercased company
name occurs in the lowercased description, `+2` when the verified domain
occurs in the description. -/
def claimScore (company_name : String) (website : Option String) (description : String) : Nat :=
  (if strHas (pyLower description) (pyLower company_name) then 1 else 0) +
  (match website with
   | none => 0
   | some w =>
     if w = "" then 0
     else
       match extractDomainFromWebsite w with
       | none => 0
       | some domain =>
         if domain ≠ "" && strHas (pyLower description) domain then 2 else 0)

/-- Concrete web oracle realizing claim C5's scenario: the homepage
contains `jane@example.com`, the `/contact` page contains
`0121 496 0000`. -/
def c5web : ContactWeb :=
  { fetch := fun url =>
      if url = "https://ex.com" then
        some ⟨"<p>Email: jane@example.com</p>", "Email: jane@example.com"⟩
      else if url = "https://ex.com/contact" then
        some ⟨"Tel: 0121 496 0000", "Tel: 0121 496 0000"⟩
      else none
    anchors := fun h =>
      if h = "<p>Email: jane@example.com</p>" then ["https://ex.com/contact"] else [] }

/-- A configuration with a phone cap of 2, for claim C9's counterexample. -/
def c9cfg : ContactCrawlConfig := { max_phone_numbers := 2 }

/-- Concrete web oracle for claim C9's counterexample: two pages carrying
three distinct valid landlines in total. -/
def c9web : ContactWeb :=
  { fetch := fun url =>
      if url = "https://ex.com" then
        some ⟨"Call 0121 496 0001 or 0121 496 0002 or 0121 496 0003",
              "Call 0121 496 0001 or 0121 496 0002 or 0121 496 0003"⟩
      else if url = "https://ex.com/contact" then
        some ⟨"Call 0121 496 0003 now", "Call 0121 496 0003 now"⟩
      else none
    anchors := fun h => if h ≠ "" then ["https://ex.com/contact"] else [] }

/-- Concrete fetch oracle for claim C2's witness: one TARGET page carrying
both identifiers. -/
def c2fetch : String → Option String := fun url =>
  if url = "https://ex.com/about" then some "Reg 12345678 VAT GB999999999" else none

/-- Company data for claim C2's witness. -/
def c2data : CompanyData := ⟨some "12345678", some "GB999999999"⟩

/-- Results rows for claim C3's counterexample: a single valid row whose
VAT link text carries an inner space. -/
def c3rows : List VatRow := [⟨"ACME LIMITED", "", "GB 123456789", ""⟩]

/-- Results rows with two valid rows for claim C6's witness. -/
def c6rows : List VatRow :=
  [⟨"ACME PLUMBING LIMITED", "", "GB111111111", ""⟩,
   ⟨"ACME LIMITED", "", "GB222222222", ""⟩]

/-- Organic results for claim C8's witness. -/
def c8organic : List SerpResult :=
  [⟨"https://linkedin.com/company/acme", "t", "ACME Ltd is great", 1⟩,
   ⟨"https://linkedin.com/in/jane", "t", "nothing relevant here", 2⟩,
   ⟨"https://uk.linkedin.com/in/bob", "t", "works at acme ltd on acme.com", 3⟩]

/-- The surviving employee result of `c8organic`. -/
def c8bob : LinkedInResult :=
  { url := "https://uk.linkedin.com/in/bob"
    title := "t"
    description := "works at acme ltd on acme.com"
    position := 3
    score := 3
    match_details := "CompanyName(Desc); Domain(Desc:+2)" }

/-! ## Helper lemmas on the list utilities -/

theorem mem_insertNew {acc : List String} {y x : String} :
    x ∈ insertNew acc y ↔ x = y ∨ x ∈ acc := by
  unfold insertNew
  split
  · constructor
    · exact Or.inr
    · rintro (rfl | hx)
      · assumption
      · assumption
  · simp [List.mem_append, or_comm]

theorem nodup_insertNew {acc : List String} {y : String} (h : acc.Nodup) :
    (insertNew acc y).Nodup := by
  unfold insertNew
  split
  · exact h
  · rename_i hy
    rw [List.nodup_append]
    refine ⟨h, List.nodup_singleton y, ?_⟩
    intro a ha hb
    simp only [List.mem_singleton] at hb
    subst hb
    exact hy ha

theorem nodup_foldl_insertNew : ∀ (l acc : List String), acc.Nodup →
    (l.foldl insertNew acc).Nodup := by
  intro l
  induction l with
  | nil => intro acc h; exact h
  | cons a l ih => intro acc h; exact ih _ (nodup_insertNew h)

theorem mem_foldl_insertNew : ∀ (l acc : List String) (x : String),
    x ∈ l.foldl insertNew acc ↔ x ∈ acc ∨ x ∈ l := by
  intro l
  induction l with
  | nil => intro acc x; simp
  | cons a l ih =>
    intro acc x
    rw [List.foldl_cons, ih, mem_insertNew]
    simp
    tauto

theorem nodup_dedupFirst (l : List String) : (dedupFirst l).Nodup :=
  nodup_foldl_insertNew l [] List.nodup_nil

theorem mem_dedupFirst {l : List String} {x : String} : x ∈ dedupFirst l ↔ x ∈ l := by
  unfold dedupFirst
  rw [mem_foldl_insertNew]
  simp

theorem length_insertNew_le (acc : List String) (y : String) :
    (insertNew acc y).length ≤ acc.length + 1 := by
  unfold insertNew
  split
  · omega
  · simp

theorem length_foldl_insertNew_le : ∀ (l acc : List String),
    (l.foldl insertNew acc).length ≤ acc.length + l.length := by
  intro l
  induction l with
  | nil => intro acc; simp
  | cons a l ih =>
    intro acc
    rw [List.foldl_cons]
    have h1 := ih (insertNew acc a)
    have h2 := length_insertNew_le acc a
    simp only [List.length_cons]
    omega

theorem length_dedupFirst_le (l : List String) : (dedupFirst l).length ≤ l.length := by
  have := length_foldl_insertNew_le l []
  simpa [dedupFirst] using this

/-! ## Lower-case idempotence -/

theorem toNat_ofNat_valid {n : Nat} (h : n.isValidChar) : (Char.ofNat n).toNat = n := by
  simp [Char.ofNat, Nat.isValidChar, h, Char.toNat, Char.ofNatAux, UInt32.toNat,
    BitVec.toNat_ofNatLt]

theorem lowChar_idem (c : Char) : lowChar (lowChar c) = lowChar c := by
  unfold lowChar
  by_cases h : 65 ≤ c.toNat ∧ c.toNat ≤ 90
  · rw [if_pos h]
    have hval : (Char.ofNat (c.toNat + 32)).toNat = c.toNat + 32 :=
      toNat_ofNat_valid (Or.inl (by omega))
    rw [if_neg]
    rw [hval]
    omega
  · rw [if_neg h, if_neg h]

theorem lowChar_map_idem (l : List Char) : (l.map lowChar).map lowChar = l.map lowChar := by
  rw [List.map_map]
  apply List.map_congr_left
  intro a _
  exact lowChar_idem a

theorem pyLower_idem (s : String) : pyLower (pyLower s) = pyLower s := by
  simp only [pyLower]
  exact congrArg String.mk (lowChar_map_idem s.data)

theorem pyLower_strDrop {s : String} (h : pyLower s = s) (n : Nat) :
    pyLower (strDrop s n) = strDrop s n := by
  simp only [pyLower, strDrop]
  congr 1
  have hd : s.data.map lowChar = s.data := congrArg String.data h
  calc (s.data.drop n).map lowChar = (s.data.map lowChar).drop n := by
        rw [List.map_drop]
      _ = s.data.drop n := by rw [hd]

/-! ## Claim C7: domain extraction -/

theorem extractBaseDomain_lower {u d : String} (h : extractBaseDomain u = some d) :
    pyLower d = d := by
  unfold extractBaseDomain at h
  split at h
  · exact absurd h (by simp)
  · dsimp only at h
    split at h
    · split at h
      · exact absurd h (by simp)
      · simp only [Option.some.injEq] at h
        subst h
        exact pyLower_strDrop (pyLower_idem _) 4
    · split at h
      · exact absurd h (by simp)
      · simp only [Option.some.injEq] at h
        subst h
        exact pyLower_idem _

theorem extractBaseDomain_ne_empty {u d : String} (h : extractBaseDomain u = some d) :
    d ≠ "" := by
  unfold extractBaseDomain at h
  split at h
  · exact absurd h (by simp)
  · dsimp only at h
    split at h <;>
    · split at h
      · exact absurd h (by simp)
      · rename_i hcond
        simp only [Option.some.injEq] at h
        push_neg at hcond
        intro hd
        subst h
        rw [hd] at hcond
        exact absurd hcond.1 (by decide)

theorem extractWebsites_foldl_eq : ∀ (urls : List String) (acc : List String),
    urls.foldl (fun acc url =>
      if url ≠ "" then
        match extractBaseDomain url with
        | some d => if d ≠ "" then insertNew acc d else acc
        | none => acc
      else acc) acc = (urls.filterMap extractBaseDomain).foldl insertNew acc := by
  intro urls
  induction urls with
  | nil => intro acc; rfl
  | cons u rest ih =>
    intro acc
    rw [List.foldl_cons, List.filterMap_cons]
    by_cases hu : u = ""
    · subst hu
      have h0 : extractBaseDomain "" = none := by decide
      simpa [h0] using ih acc
    · cases hext : extractBaseDomain u with
      | none => simpa [hext, hu] using ih acc
      | some d =>
        have hd : d ≠ "" := extractBaseDomain_ne_empty hext
        simpa [hext, hu, hd] using ih (insertNew acc d)

/-- C7.  Domain extraction returns, in first-seen order with duplicates
removed, the base domains of exactly those result URLs that start with
`http://` or `https://` (lowercased, leading `www.` stripped, discarding
domains without a dot or shorter than 3 characters); the returned list
never contains a duplicate, also case-insensitively. -/
theorem claim7_extract_domains (urls : List String) :
    extractWebsitesFromResults urls = specExtractDomains urls
    ∧ (∀ d, d ∈ extractWebsitesFromResults urls ↔ ∃ u ∈ urls, extractBaseDomain u = some d)
    ∧ (extractWebsitesFromResults urls).Nodup
    ∧ (extractWebsitesFromResults urls).Pairwise (fun a b => pyLower a ≠ pyLower b) := by
  have heq : extractWebsitesFromResults urls = specExtractDomains urls := by
    unfold extractWebsitesFromResults specExtractDomains dedupFirst
    exact extractWebsites_foldl_eq urls []
  have hmem : ∀ d, d ∈ extractWebsitesFromResults urls ↔
      ∃ u ∈ urls, extractBaseDomain u = some d := by
    intro d
    rw [heq]
    unfold specExtractDomains
    rw [mem_dedupFirst, List.mem_filterMap]
  have hnodup : (extractWebsitesFromResults urls).Nodup := by
    rw [heq]
    exact nodup_dedupFirst _
  refine ⟨heq, hmem, hnodup, ?_⟩
  refine List.Pairwise.imp_of_mem ?_ hnodup
  intro a b ha hb hne
  obtain ⟨u1, _, he1⟩ := (hmem a).1 ha
  obtain ⟨u2, _, he2⟩ := (hmem b).1 hb
  rw [extractBaseDomain_lower he1, extractBaseDomain_lower he2]
  exact hne

/-! ## Claims C10, C3, C6: the VAT resolver -/

theorem mem_validVatRows_valid (rows : List VatRow) {r : VatRow}
    (h : r ∈ validVatRows rows) : validateVatFormat r.vat_number = true := by
  unfold validVatRows at h
  have := List.of_mem_filter h
  simp only [Bool.and_eq_true] at this
  exact this.2

theorem parseVatResults_valid {rows : List VatRow} {t : String} {r : VatRow}
    (h : parseVatResults rows t = some r) : validateVatFormat r.vat_number = true := by
  unfold parseVatResults at h
  dsimp only at h
  split at h
  · exact absurd h (by simp)
  · split at h
    · apply mem_validVatRows_valid rows
      cases hv : validVatRows rows with
      | nil => rw [hv] at h; exact absurd h (by simp)
      | cons a l =>
        rw [hv] at h
        simp only [List.head?_cons, Option.some.injEq] at h
        subst h
        exact hv ▸ List.mem_cons_self a l
    · exact mem_validVatRows_valid rows (List.mem_of_find?_eq_some h)

theorem vatTryVariation_some {t : String} : ∀ (n : Nat) (rs rs2 : List VatResponse)
    (row : VatRow), vatTryVariation t n rs = (some row, rs2) →
    ∃ rows, parseVatResults rows t = some row := by
  intro n
  induction n with
  | zero => intro rs rs2 row h; exact absurd h (by simp [vatTryVariation])
  | succ m ih =>
    intro rs rs2 row h
    cases rs with
    | nil => exact absurd h (by simp [vatTryVariation])
    | cons r rest =>
      cases r with
      | netFail =>
        rw [show vatTryVariation t (m + 1) (VatResponse.netFail :: rest)
            = if m = 0 then (none, rest) else vatTryVariation t m rest from rfl] at h
        split at h
        · exact absurd h (by simp)
        · exact ih rest rs2 row h
      | softBlock =>
        rw [show vatTryVariation t (m + 1) (VatResponse.softBlock :: rest)
            = if m = 0 then (none, rest) else vatTryVariation t m rest from rfl] at h
        split at h
        · exact absurd h (by simp)
        · exact ih rest rs2 row h
      | notFound => exact absurd h (by simp [vatTryVariation])
      | unknown => exact absurd h (by simp [vatTryVariation])
      | resultsFound rows =>
        rw [show vatTryVariation t (m + 1) (VatResponse.resultsFound rows :: rest)
            = (parseVatResults rows t, rest) from rfl] at h
        exact ⟨rows, congrArg Prod.fst h⟩

theorem vatLookupLoop_shape (orig : String) (allv : List String) (proxy : String) :
    ∀ (vars : List String) (idx : Nat) (rs : List VatResponse),
    (vatLookupLoop orig allv proxy vars idx rs).search_status = "SUCCESS"
      ∧ validateVatFormat (vatLookupLoop orig allv proxy vars idx rs).vat_number = true
    ∨ (vatLookupLoop orig allv proxy vars idx rs).vat_number = "NOT_FOUND" := by
  intro vars
  induction vars with
  | nil => intro idx rs; right; rfl
  | cons t rest ih =>
    intro idx rs
    rw [show vatLookupLoop orig allv proxy (t :: rest) idx rs
        = (match vatTryVariation t vatMaxRetries rs with
           | (some row, _) => vatSuccessRecord orig allv idx row t proxy
           | (none, rs2) => vatLookupLoop orig allv proxy rest (idx + 1) rs2) from rfl]
    cases hv : vatTryVariation t vatMaxRetries rs with
    | mk fst snd =>
      cases fst with
      | some row =>
        left
        obtain ⟨rows, hp⟩ := vatTryVariation_some vatMaxRetries rs snd row hv
        exact ⟨rfl, parseVatResults_valid hp⟩
      | none => exact ih (idx + 1) snd

/-- C10.  Whenever `lookup_vat_by_company_name` does not return status
`SUCCESS`, the `vat_number` field is exactly the sentinel `"NOT_FOUND"`:
every result is either a success or carries the sentinel. -/
theorem claim10_non_success_sentinel (name proxy : String) (rs : List VatResponse) :
    (lookupVatByCompanyName name proxy rs).search_status = "SUCCESS"
    ∨ (lookupVatByCompanyName name proxy rs).vat_number = "NOT_FOUND" := by
  unfold lookupVatByCompanyName
  split
  · right; rfl
  · dsimp only
    split
    · right; rfl
    · rcases vatLookupLoop_shape (pyStrip name) (sanitizeCompanyName (pyStrip name)) proxy
        (sanitizeCompanyName (pyStrip name)) 0 rs with h | h
      · exact Or.inl h.1
      · exact Or.inr h

/-- C3 (counterexample).  A scraped results table whose single valid row
carries the link text `"GB 123456789"` (an inner space) yields status
`SUCCESS` with that raw string as `vat_number`, which does not match
`^GB\d{9}$`: the format is validated on the uppercased, space-stripped
copy, while the raw cell text is returned. -/
theorem claim3_counterexample :
    (lookupVatByCompanyName "ACME LIMITED" "proxy"
      [VatResponse.resultsFound c3rows]).search_status = "SUCCESS"
    ∧ (lookupVatByCompanyName "ACME LIMITED" "proxy"
      [VatResponse.resultsFound c3rows]).vat_number = "GB 123456789"
    ∧ matchesGBNineDigits (lookupVatByCompanyName "ACME LIMITED" "proxy"
      [VatResponse.resultsFound c3rows]).vat_number = false := by
  refine ⟨?_, ?_, ?_⟩ <;> decide

theorem vatLookupLoop_success_valid (orig : String) (allv : List String) (proxy : String) :
    ∀ (vars : List String) (idx : Nat) (rs : List VatResponse),
    (vatLookupLoop orig allv proxy vars idx rs).search_status = "SUCCESS" →
    validateVatFormat (vatLookupLoop orig allv proxy vars idx rs).vat_number = true := by
  intro vars
  induction vars with
  | nil =>
    intro idx rs h
    exact absurd h (by simp [vatLookupLoop, vatErrorRecord])
  | cons t rest ih =>
    intro idx rs h
    rw [show vatLookupLoop orig allv proxy (t :: rest) idx rs
        = (match vatTryVariation t vatMaxRetries rs with
           | (some row, _) => vatSuccessRecord orig allv idx row t proxy
           | (none, rs2) => vatLookupLoop orig allv proxy rest (idx + 1) rs2) from rfl] at h ⊢
    generalize hv : vatTryVariation t vatMaxRetries rs = p at h ⊢
    obtain ⟨fst, snd⟩ := p
    cases fst with
    | some row =>
      dsimp only at h ⊢
      obtain ⟨rows, hp⟩ := vatTryVariation_some vatMaxRetries rs snd row hv
      exact parseVatResults_valid hp
    | none =>
      dsimp only at h ⊢
      exact ih (idx + 1) snd h

/-- C3 (amended).  Whenever `lookup_vat_by_company_name` returns status
`SUCCESS`, the returned `vat_number`, after uppercasing and removing
spaces, matches `GB` followed by exactly nine digits (the source's
`_validate_vat_format` predicate holds of it). -/
theorem claim3_success_vat_format (name proxy : String) (rs : List VatResponse)
    (h : (lookupVatByCompanyName name proxy rs).search_status = "SUCCESS") :
    validateVatFormat (lookupVatByCompanyName name proxy rs).vat_number = true := by
  unfold lookupVatByCompanyName at h ⊢
  by_cases h1 : pyStrip name = ""
  · rw [if_pos h1] at h
    exact absurd h (by simp [vatErrorRecord])
  · rw [if_neg h1] at h ⊢
    dsimp only at h ⊢
    by_cases h2 : sanitizeCompanyName (pyStrip name) = []
    · rw [if_pos h2] at h
      exact absurd h (by simp [vatErrorRecord])
    · rw [if_neg h2] at h ⊢
      exact vatLookupLoop_success_valid _ _ _ _ _ _ h

/-- Witness for `claim3_success_vat_format` at a concrete success run. -/
theorem claim3_success_vat_format_witness :
    (lookupVatByCompanyName "ACME LIMITED" "proxy"
      [VatResponse.softBlock, VatResponse.resultsFound c3rows]).search_status = "SUCCESS"
    ∧ validateVatFormat (lookupVatByCompanyName "ACME LIMITED" "proxy"
      [VatResponse.softBlock, VatResponse.resultsFound c3rows]).vat_number = true :=
  ⟨by decide, claim3_success_vat_format "ACME LIMITED" "proxy"
    [VatResponse.softBlock, VatResponse.resultsFound c3rows] (by decide)⟩

/-- C6.  With at least two validly formatted rows in the results table,
`_parse_vat_results` returns exactly the first row whose company name,
uppercased and stripped, equals the uppercased and stripped search
variant (`List.find?`), and `None` when no row matches; and on a
`results_found` response whose parse yields no exact match, the main loop
advances to the next name variant with the remaining responses. -/
theorem claim6_multi_row_exact_match :
    (∀ (rows : List VatRow) (term : String), 2 ≤ (validVatRows rows).length →
      parseVatResults rows term =
        (validVatRows rows).find?
          (fun r => pyStrip (pyUpper r.company_name) = pyStrip (pyUpper term)))
    ∧ (∀ (orig : String) (allv : List String) (proxy term : String) (rest : List String)
        (idx : Nat) (rows : List VatRow) (rs : List VatResponse),
        2 ≤ (validVatRows rows).length →
        (validVatRows rows).find?
          (fun r => pyStrip (pyUpper r.company_name) = pyStrip (pyUpper term)) = none →
        vatLookupLoop orig allv proxy (term :: rest) idx (VatResponse.resultsFound rows :: rs)
          = vatLookupLoop orig allv proxy rest (idx + 1) rs) := by
  have hparse : ∀ (rows : List VatRow) (term : String), 2 ≤ (validVatRows rows).length →
      parseVatResults rows term =
        (validVatRows rows).find?
          (fun r => pyStrip (pyUpper r.company_name) = pyStrip (pyUpper term)) := by
    intro rows term hlen
    have h1 : ¬ validVatRows rows = [] := by
      intro hnil
      rw [hnil] at hlen
      simp at hlen
    have h2 : ¬ (validVatRows rows).length = 1 := by omega
    unfold parseVatResults
    dsimp only
    rw [if_neg h1, if_neg h2]
  refine ⟨hparse, ?_⟩
  intro orig allv proxy term rest idx rows rs hlen hnone
  have hp : parseVatResults rows term = none := by rw [hparse rows term hlen, hnone]
  have ht : vatTryVariation term vatMaxRetries (VatResponse.resultsFound rows :: rs)
      = (parseVatResults rows term, rs) := rfl
  rw [show vatLookupLoop orig allv proxy (term :: rest) idx
        (VatResponse.resultsFound rows :: rs)
      = (match vatTryVariation term vatMaxRetries (VatResponse.resultsFound rows :: rs) with
         | (some row, _) => vatSuccessRecord orig allv idx row term proxy
         | (none, rs2) => vatLookupLoop orig allv proxy rest (idx + 1) rs2) from rfl]
  rw [ht, hp]

/-- Witness for `claim6_multi_row_exact_match` at a two-row table: the
exact case-insensitive match is returned, and with no matching row the
loop advances to the next variant. -/
theorem claim6_multi_row_exact_match_witness :
    (2 ≤ (validVatRows c6rows).length
      ∧ parseVatResults c6rows "ACME LIMITED" =
          (validVatRows c6rows).find?
            (fun r => pyStrip (pyUpper r.company_name) = pyStrip (pyUpper "ACME LIMITED")))
    ∧ ((validVatRows c6rows).find?
          (fun r => pyStrip (pyUpper r.company_name) = pyStrip (pyUpper "ZED LTD")) = none
      ∧ vatLookupLoop "Z" ["ZED LTD", "ZED LIMITED"] "proxy" ["ZED LTD", "ZED LIMITED"] 0
          (VatResponse.resultsFound c6rows :: [VatResponse.notFound])
        = vatLookupLoop "Z" ["ZED LTD", "ZED LIMITED"] "proxy" ["ZED LIMITED"] 1
            [VatResponse.notFound]) :=
  ⟨⟨by decide, claim6_multi_row_exact_match.1 c6rows "ACME LIMITED" (by decide)⟩,
   ⟨by decide, claim6_multi_row_exact_match.2 "Z" ["ZED LTD", "ZED LIMITED"] "proxy" "ZED LTD"
      ["ZED LIMITED"] 0 c6rows [VatResponse.notFound] (by decide) (by decide)⟩⟩

/-! ## Claims C1, C2: the precision crawler -/

theorem PMInv_initMatch (ident : String) : PMInv (initMatch ident) := by
  constructor
  · intro h
    simp [initMatch] at h
  · intro _
    rfl

theorem PMInv_setMatch (m : PrecisionMatch) (pt : PageType) (url : String) :
    PMInv (m.setMatch pt url) := by
  constructor
  · intro _
    cases pt
    · left
      exact ⟨rfl, rfl⟩
    · right
      exact ⟨rfl, rfl⟩
  · intro h
    simp [PrecisionMatch.setMatch] at h

theorem crawlPhaseAux_inv (fetch : String → Option String) (pt : PageType) (d : CompanyData)
    (maxPages : Nat) : ∀ (pages : List String) (cm vm : PrecisionMatch) (n : Nat)
    (log : List String), PMInv cm → PMInv vm →
    PMInv (crawlPhaseAux fetch pt d maxPages pages cm vm n log).1
      ∧ PMInv (crawlPhaseAux fetch pt d maxPages pages cm vm n log).2.1 := by
  intro pages
  induction pages with
  | nil => intro cm vm n log hc hv; exact ⟨hc, hv⟩
  | cons url rest ih =>
    intro cm vm n log hc hv
    rw [show crawlPhaseAux fetch pt d maxPages (url :: rest) cm vm n log
        = (if n ≥ maxPages then (cm, vm, n, log)
           else if cm.found ∧ vm.found then (cm, vm, n, log)
           else
             match fetch url with
             | none => crawlPhaseAux fetch pt d maxPages rest cm vm n (log ++ [url])
             | some text =>
               let pm := checkExactMatches text d
               let cm2 := if pm.1 ∧ ¬ cm.found then cm.setMatch pt url else cm
               let vm2 := if pm.2 ∧ ¬ vm.found then vm.setMatch pt url else vm
               crawlPhaseAux fetch pt d maxPages rest cm2 vm2 (n + 1) (log ++ [url]))
        from rfl]
    split
    · exact ⟨hc, hv⟩
    · split
      · exact ⟨hc, hv⟩
      · cases fetch url with
        | none => exact ih cm vm n (log ++ [url]) hc hv
        | some text =>
          dsimp only
          apply ih
          · split
            · exact PMInv_setMatch cm pt url
            · exact hc
          · split
            · exact PMInv_setMatch vm pt url
            · exact hv

theorem crawlPagesPhase_inv (fetch : String → Option String) (pages : List String)
    (pt : PageType) (d : CompanyData) (maxPages : Nat) :
    PMInv (crawlPagesPhase fetch pages pt d maxPages).1
      ∧ PMInv (crawlPagesPhase fetch pages pt d maxPages).2.1 :=
  crawlPhaseAux_inv fetch pt d maxPages (pages.take maxPages) _ _ 0 []
    (PMInv_initMatch "company_number") (PMInv_initMatch "vat_number")

theorem crawlSingle_shape (fetch : String → Option String) (cfg : CrawlConfigV3)
    (domain : String) (links : List String) (d : CompanyData) :
    ∃ cm vm : PrecisionMatch, PMInv cm ∧ PMInv vm
      ∧ (crawlSingleWebsiteT fetch cfg domain links d).1.company_number_match = cm
      ∧ (crawlSingleWebsiteT fetch cfg domain links d).1.vat_number_match = vm
      ∧ (crawlSingleWebsiteT fetch cfg domain links d).1.total_score =
          (if cm.found then cm.score_weight else 0) + (if vm.found then vm.score_weight else 0) := by
  unfold crawlSingleWebsiteT
  split
  · refine ⟨initMatch "company_number", initMatch "vat_number",
      PMInv_initMatch _, PMInv_initMatch _, rfl, rfl, ?_⟩
    simp [crawlErrorResult, initMatch]
  · dsimp only
    refine ⟨_, _, ?_, ?_, rfl, rfl, rfl⟩ <;>
    · repeat' split
      all_goals
        first
          | exact (crawlPagesPhase_inv fetch _ _ d _).1
          | exact (crawlPagesPhase_inv fetch _ _ d _).2
          | exact PMInv_initMatch _

theorem pmClaimWeight_eq {pm : PrecisionMatch} (h : PMInv pm) :
    (if pm.found then pm.score_weight else 0) = pmClaimWeight pm := by
  unfold pmClaimWeight
  cases hf : pm.found
  · rfl
  · rcases h.1 hf with ⟨hpt, hw⟩ | ⟨hpt, hw⟩
    · rw [hw, hpt]
      simp
    · rw [hw, hpt]
      simp

theorem pmClaimWeight_cases (pm : PrecisionMatch) :
    pmClaimWeight pm = 0 ∨ pmClaimWeight pm = 3/4 ∨ pmClaimWeight pm = 1 := by
  unfold pmClaimWeight
  split
  · split
    · right; right; rfl
    · right; left; rfl
  · left; rfl

theorem pmClaimWeight_eq_one_iff (pm : PrecisionMatch) :
    pmClaimWeight pm = 1 ↔ (pm.found = true ∧ pm.page_type = some PageType.TARGET) := by
  unfold pmClaimWeight
  split
  · rename_i hf
    split
    · rename_i hpt
      simp [hf, hpt]
    · rename_i hpt
      constructor
      · intro h
        exact absurd h (by norm_num)
      · rintro ⟨_, hp⟩
        exact absurd hp hpt
  · rename_i hf
    constructor
    · intro h
      exact absurd h (by norm_num)
    · rintro ⟨hfound, _⟩
      exact absurd hfound hf

theorem claim1_core {cm vm : PrecisionMatch} :
    0 ≤ pmClaimWeight cm + pmClaimWeight vm ∧ pmClaimWeight cm + pmClaimWeight vm ≤ 2
    ∧ (pmClaimWeight cm + pmClaimWeight vm = 2 ↔
        ((cm.found = true ∧ cm.page_type = some PageType.TARGET)
          ∧ (vm.found = true ∧ vm.page_type = some PageType.TARGET))) := by
  have hiff : pmClaimWeight cm + pmClaimWeight vm = 2 ↔
      (pmClaimWeight cm = 1 ∧ pmClaimWeight vm = 1) := by
    rcases pmClaimWeight_cases cm with h1 | h1 | h1 <;>
      rcases pmClaimWeight_cases vm with h2 | h2 | h2 <;>
      rw [h1, h2] <;> norm_num
  refine ⟨?_, ?_, ?_⟩
  · rcases pmClaimWeight_cases cm with h1 | h1 | h1 <;>
      rcases pmClaimWeight_cases vm with h2 | h2 | h2 <;>
      rw [h1, h2] <;> norm_num
  · rcases pmClaimWeight_cases cm with h1 | h1 | h1 <;>
      rcases pmClaimWeight_cases vm with h2 | h2 | h2 <;>
      rw [h1, h2] <;> norm_num
  · rw [hiff, pmClaimWeight_eq_one_iff, pmClaimWeight_eq_one_iff]

/-- C1.  Every `WebsiteScoreV3` produced by a single-domain crawl has
`total_score` equal to the sum of the per-identifier claim weights (1 for
a TARGET-page match, 3/4 for a NON_TARGET-page match, 0 when not found);
hence `total_score ∈ [0, 2]`, with `total_score = 2` exactly when both
the company-number match and the VAT match were found with page type
TARGET. -/
theorem claim1_crawl_score_invariant (fetch : String → Option String) (cfg : CrawlConfigV3)
    (domain : String) (links : List String) (d : CompanyData) :
    (crawlSingleWebsite fetch cfg domain links d).total_score
      = pmClaimWeight (crawlSingleWebsite fetch cfg domain links d).company_number_match
        + pmClaimWeight (crawlSingleWebsite fetch cfg domain links d).vat_number_match
    ∧ 0 ≤ (crawlSingleWebsite fetch cfg domain links d).total_score
    ∧ (crawlSingleWebsite fetch cfg domain links d).total_score ≤ 2
    ∧ ((crawlSingleWebsite fetch cfg domain links d).total_score = 2 ↔
        (((crawlSingleWebsite fetch cfg domain links d).company_number_match.found = true
          ∧ (crawlSingleWebsite fetch cfg domain links d).company_number_match.page_type
              = some PageType.TARGET)
         ∧ ((crawlSingleWebsite fetch cfg domain links d).vat_number_match.found = true
          ∧ (crawlSingleWebsite fetch cfg domain links d).vat_number_match.page_type
              = some PageType.TARGET))) := by
  obtain ⟨cm, vm, hc, hv, hcm, hvm, htot⟩ := crawlSingle_shape fetch cfg domain links d
  unfold crawlSingleWebsite
  rw [hcm, hvm, htot, pmClaimWeight_eq hc, pmClaimWeight_eq hv]
  exact ⟨rfl, claim1_core.1, claim1_core.2.1, claim1_core.2.2⟩

theorem crawlPagesPhase_nil (fetch : String → Option String) (pt : PageType)
    (d : CompanyData) (maxP : Nat) :
    crawlPagesPhase fetch [] pt d maxP
      = (initMatch "company_number", initMatch "vat_number", 0, []) := by
  unfold crawlPagesPhase
  rw [List.take_nil]
  rfl

/-- C2.  If phase 1 (the TARGET-page crawl) finds both the company number
and the VAT number, then phase 2 is never entered: no NON_TARGET page is
requested, `non_target_pages_crawled` is 0, the phase-1 matches are
returned unchanged, and the completed-phase list names only phase 1. -/
theorem claim2_phase1_short_circuit (fetch : String → Option String) (cfg : CrawlConfigV3)
    (domain : String) (links : List String) (d : CompanyData)
    (hc : (crawlPagesPhase fetch (categorizePages cfg.target_page_keywords links).1
      PageType.TARGET d cfg.max_target_pages).1.found = true)
    (hv : (crawlPagesPhase fetch (categorizePages cfg.target_page_keywords links).1
      PageType.TARGET d cfg.max_target_pages).2.1.found = true) :
    (crawlSingleWebsiteT fetch cfg domain links d).1.non_target_pages_crawled = 0
    ∧ (crawlSingleWebsiteT fetch cfg domain links d).2.phase2_requests = []
    ∧ (crawlSingleWebsiteT fetch cfg domain links d).1.company_number_match
        = (crawlPagesPhase fetch (categorizePages cfg.target_page_keywords links).1
            PageType.TARGET d cfg.max_target_pages).1
    ∧ (crawlSingleWebsiteT fetch cfg domain links d).1.vat_number_match
        = (crawlPagesPhase fetch (categorizePages cfg.target_page_keywords links).1
            PageType.TARGET d cfg.max_target_pages).2.1
    ∧ (crawlSingleWebsiteT fetch cfg domain links d).1.search_phases_completed
        = ["Phase 1: Target pages"] := by
  have hlinks : links ≠ [] := by
    intro h0
    subst h0
    rw [show (categorizePages cfg.target_page_keywords ([] : List String)).1 = []
      from rfl, crawlPagesPhase_nil] at hc
    simp [initMatch] at hc
  have htp : (categorizePages cfg.target_page_keywords links).1 ≠ [] := by
    intro h0
    rw [h0, crawlPagesPhase_nil] at hc
    simp [initMatch] at hc
  unfold crawlSingleWebsiteT
  rw [if_neg hlinks]
  dsimp only
  have hcc : (categorizePages cfg.target_page_keywords links).1 ≠ [] ∧
      (crawlPagesPhase fetch (categorizePages cfg.target_page_keywords links).1
        PageType.TARGET d cfg.max_target_pages).1.found = true := ⟨htp, hc⟩
  have hvv : (categorizePages cfg.target_page_keywords links).1 ≠ [] ∧
      (crawlPagesPhase fetch (categorizePages cfg.target_page_keywords links).1
        PageType.TARGET d cfg.max_target_pages).2.1.found = true := ⟨htp, hv⟩
  simp only [if_pos htp, if_pos hcc, if_pos hvv]
  have hno : ¬ (¬ ((crawlPagesPhase fetch (categorizePages cfg.target_page_keywords links).1
      PageType.TARGET d cfg.max_target_pages).1.found = true
      ∧ (crawlPagesPhase fetch (categorizePages cfg.target_page_keywords links).1
      PageType.TARGET d cfg.max_target_pages).2.1.found = true)
      ∧ (categorizePages cfg.target_page_keywords links).2 ≠ []) :=
    fun hcontra => hcontra.1 ⟨hc, hv⟩
  simp only [if_neg hno, List.append_nil]
  refine ⟨?_, ?_, ?_, ?_, ?_⟩
  · trivial
  · trivial
  · split
    · rename_i hcond
      exact absurd hcond.2.1 (by decide)
    · rfl
  · split
    · rename_i hcond
      exact absurd hcond.2.1 (by decide)
    · rfl
  · trivial

/-- Witness for `claim2_phase1_short_circuit`: a single TARGET page
carrying both identifiers. -/
theorem claim2_phase1_short_circuit_witness :
    ((crawlPagesPhase c2fetch
        (categorizePages ({} : CrawlConfigV3).target_page_keywords ["https://ex.com/about"]).1
        PageType.TARGET c2data ({} : CrawlConfigV3).max_target_pages).1.found = true
      ∧ (crawlPagesPhase c2fetch
        (categorizePages ({} : CrawlConfigV3).target_page_keywords ["https://ex.com/about"]).1
        PageType.TARGET c2data ({} : CrawlConfigV3).max_target_pages).2.1.found = true)
    ∧ (crawlSingleWebsiteT c2fetch {} "ex.com" ["https://ex.com/about"] c2data).1.non_target_pages_crawled = 0
    ∧ (crawlSingleWebsiteT c2fetch {} "ex.com" ["https://ex.com/about"] c2data).2.phase2_requests = [] :=
  ⟨⟨by decide, by decide⟩,
   (claim2_phase1_short_circuit c2fetch {} "ex.com" ["https://ex.com/about"] c2data
      (by decide) (by decide)).1,
   (claim2_phase1_short_circuit c2fetch {} "ex.com" ["https://ex.com/about"] c2data
      (by decide) (by decide)).2.1⟩

/-! ## Claim C8: LinkedIn scoring and the zero-score filter -/

theorem scoreLinkedInResult_eq (name : String) (website : Option String) (r : SerpResult) :
    (scoreLinkedInResult name website r).1 = claimScore name website r.description := by
  unfold scoreLinkedInResult claimScore
  cases website with
  | none =>
    dsimp only
    split <;> rfl
  | some w =>
    dsimp only
    by_cases hw : w = ""
    · rw [if_pos hw, if_pos hw]
      split <;> rfl
    · rw [if_neg hw, if_neg hw]
      dsimp only [extractDomainFromWebsite]
      split_ifs <;> rfl

theorem mem_insDescByScore {x a : LinkedInResult} : ∀ {l : List LinkedInResult},
    a ∈ insDescByScore x l ↔ a = x ∨ a ∈ l := by
  intro l
  induction l with
  | nil => simp [insDescByScore]
  | cons y ys ih =>
    unfold insDescByScore
    split
    · simp
    · rw [List.mem_cons, ih, List.mem_cons]
      tauto

theorem mem_sortDescByScore {a : LinkedInResult} : ∀ {l : List LinkedInResult},
    a ∈ sortDescByScore l ↔ a ∈ l := by
  intro l
  induction l with
  | nil => simp [sortDescByScore]
  | cons y ys ih =>
    unfold sortDescByScore at ih ⊢
    rw [List.foldr_cons, mem_insDescByScore, ih, List.mem_cons]

theorem processZenserpAux_mem (name : String) (website : Option String) :
    ∀ (rest : List SerpResult) (cs es : List LinkedInResult) (x : LinkedInResult),
    x ∈ (processZenserpAux name website rest cs es).1
        ++ (processZenserpAux name website rest cs es).2 →
    x ∈ cs ++ es ∨ (0 < x.score ∧ x.score = claimScore name website x.description) := by
  intro rest
  induction rest with
  | nil => intro cs es x hx; exact Or.inl hx
  | cons r rest ih =>
    intro cs es x hx
    rw [show processZenserpAux name website (r :: rest) cs es
        = (if ¬ strHas (pyLower r.url) "linkedin.com" then
             processZenserpAux name website rest cs es
           else
             let sm := scoreLinkedInResult name website r
             if sm.1 = 0 then processZenserpAux name website rest cs es
             else
               let lr : LinkedInResult :=
                 { url := r.url
                   title := r.title
                   description := r.description
                   position := r.position
                   score := sm.1
                   match_details := sm.2 }
               if lr.is_company_url then processZenserpAux name website rest (cs ++ [lr]) es
               else if lr.is_employee_url then processZenserpAux name website rest cs (es ++ [lr])
               else processZenserpAux name website rest cs es) from rfl] at hx
    split at hx
    · exact ih cs es x hx
    · dsimp only at hx
      split at hx
      · exact ih cs es x hx
      · rename_i hnz
        have hP : 0 < (scoreLinkedInResult name website r).1
            ∧ (scoreLinkedInResult name website r).1
                = claimScore name website r.description := by
          refine ⟨?_, scoreLinkedInResult_eq name website r⟩
          omega
        split at hx
        · rcases ih _ _ x hx with hmem | hp
          · rw [List.mem_append, List.mem_append] at hmem
            rcases hmem with (hc | hl) | he
            · exact Or.inl (List.mem_append.2 (Or.inl hc))
            · right
              simp only [List.mem_singleton] at hl
              subst hl
              exact hP
            · exact Or.inl (List.mem_append.2 (Or.inr he))
          · exact Or.inr hp
        · split at hx
          · rcases ih _ _ x hx with hmem | hp
            · rw [List.mem_append, List.mem_append] at hmem
              rcases hmem with hc | (he | hl)
              · exact Or.inl (List.mem_append.2 (Or.inl hc))
              · exact Or.inl (List.mem_append.2 (Or.inr he))
              · right
                simp only [List.mem_singleton] at hl
                subst hl
                exact hP
            · exact Or.inr hp
          · exact ih cs es x hx

/-- C8.  The finder scores an organic result `+1` when the lowercased
company name occurs in the lowercased description and `+2` when the
verified domain occurs in the description; every result in either
returned list has a positive score equal to that formula — results whose
description contains neither (score 0) appear in neither list. -/
theorem claim8_zero_score_filter (organic : List SerpResult) (name : String)
    (website : Option String) :
    (∀ r : SerpResult, (scoreLinkedInResult name website r).1
        = claimScore name website r.description)
    ∧ (∀ x : LinkedInResult,
        x ∈ (processZenserpResults organic name website).1
            ++ (processZenserpResults organic name website).2 →
        0 < x.score ∧ x.score = claimScore name website x.description) := by
  refine ⟨fun r => scoreLinkedInResult_eq name website r, ?_⟩
  intro x hx
  unfold processZenserpResults at hx
  dsimp only at hx
  rw [List.mem_append, mem_sortDescByScore, mem_sortDescByScore, ← List.mem_append] at hx
  rcases processZenserpAux_mem name website organic [] [] x hx with hmem | hp
  · simp at hmem
  · exact hp

/-- Witness for `claim8_zero_score_filter`: the surviving employee result
of a concrete organic list. -/
theorem claim8_zero_score_filter_witness :
    (c8bob ∈ (processZenserpResults c8organic "Acme Ltd" (some "acme.com")).1
      ++ (processZenserpResults c8organic "Acme Ltd" (some "acme.com")).2)
    ∧ 0 < c8bob.score
    ∧ c8bob.score = claimScore "Acme Ltd" (some "acme.com") c8bob.description :=
  ⟨by decide,
   ((claim8_zero_score_filter c8organic "Acme Ltd" (some "acme.com")).2 c8bob (by decide)).1,
   ((claim8_zero_score_filter c8organic "Acme Ltd" (some "acme.com")).2 c8bob (by decide)).2⟩

/-! ## Claims C4, C5, C9: the contact extractor -/

theorem phoneCandidateFilter_no_test {m clean : String}
    (h : phoneCandidateFilter m = some clean) :
    ∀ t ∈ ukTestNumbers, strHas (digitsOnly clean) t = false := by
  unfold phoneCandidateFilter at h
  dsimp only at h
  split at h
  · exact absurd h (by simp)
  · split at h
    · exact absurd h (by simp)
    · rename_i hany
      split at h
      · exact absurd h (by simp)
      · split at h
        · exact absurd h (by simp)
        · split at h
          · exact absurd h (by simp)
          · simp only [Option.some.injEq] at h
            subst h
            intro t ht
            rw [Bool.eq_false_iff]
            intro htrue
            exact hany (List.any_eq_true.2 ⟨t, ht, htrue⟩)

/-- C4 (counterexample).  The `+44` international form of the documented
test number `01214960000` is returned by the phone extractor: the
test-number containment check runs on the raw digit string, before the
`44…` → `0…` normalization of `_is_valid_uk_number`. -/
theorem claim4_counterexample :
    "+44 121 496 0000" ∈ extractPhoneNumbers {} "+44 121 496 0000" ""
    ∧ "01214960000" ∈ ukTestNumbers
    ∧ plus44Normalize (digitsOnly "+44 121 496 0000") = "01214960000" := by
  refine ⟨?_, ?_, ?_⟩ <;> decide

/-- C4 (amended).  No phone number returned by the extractor has a digit
string containing one of the six documented UK test numbers; hence every
formatting style whose digit string contains the test number — spaces,
brackets, dashes — is excluded.  (The `+44` international form is not:
its digit string starts with `44`, see the counterexample.) -/
theorem claim4_test_numbers_rejected (cfg : ContactCrawlConfig) (text html p t : String)
    (hp : p ∈ extractPhoneNumbers cfg text html) (ht : t ∈ ukTestNumbers) :
    strHas (digitsOnly p) t = false := by
  unfold extractPhoneNumbers at hp
  dsimp only at hp
  have hp2 := mem_dedupFirst.1 (List.take_subset _ _ hp)
  rw [List.mem_flatMap] at hp2
  obtain ⟨content, _, hp3⟩ := hp2
  rw [List.mem_flatMap] at hp3
  obtain ⟨pat, _, hp4⟩ := hp3
  rw [List.mem_filterMap] at hp4
  obtain ⟨m, _, hm⟩ := hp4
  exact phoneCandidateFilter_no_test hm t ht

/-- Witness for `claim4_test_numbers_rejected` at a concrete accepted
phone number. -/
theorem claim4_test_numbers_rejected_witness :
    "0121 496 0001" ∈ extractPhoneNumbers {} "Call 0121 496 0001" ""
    ∧ "01214960000" ∈ ukTestNumbers
    ∧ strHas (digitsOnly "0121 496 0001") "01214960000" = false :=
  ⟨by decide, by decide,
   claim4_test_numbers_rejected {} "Call 0121 496 0001" "" "0121 496 0001" "01214960000"
     (by decide) (by decide)⟩

/-- C5 (counterexample).  In the scenario of the claim — homepage
containing `jane@example.com`, `/contact` page containing
`0121 496 0000` — the returned phone list does *not* contain the
landline: `0121 496 0000` is one of the six documented UK test numbers
(`01214960000`) and is rejected. -/
theorem claim5_counterexample :
    "0121 496 0000" ∉ (extractContactInfo {} c5web "ex.com").phone_numbers
    ∧ "jane@example.com" ∉ (extractContactInfo {} c5web "ex.com").email_addresses := by
  refine ⟨?_, ?_⟩ <;> decide

/-- C5 (amended).  In that scenario the placeholder-domain email is
excluded *and* the landline is excluded as a documented test number: both
result lists are empty and the extraction reports no contact info. -/
theorem claim5_scenario_amended :
    (extractContactInfo {} c5web "ex.com").email_addresses = []
    ∧ (extractContactInfo {} c5web "ex.com").phone_numbers = []
    ∧ (extractContactInfo {} c5web "ex.com").extraction_status = "NO_CONTACT_INFO_FOUND"
    ∧ (extractContactInfo {} c5web "ex.com").pages_crawled = 2 := by
  refine ⟨?_, ?_, ?_, ?_⟩ <;> decide

theorem length_take_le {α : Type} (n : Nat) (l : List α) : (l.take n).length ≤ n := by
  rw [List.length_take]
  exact min_le_left _ _

theorem length_extractPhoneNumbers_le (cfg : ContactCrawlConfig) (t h : String) :
    (extractPhoneNumbers cfg t h).length ≤ cfg.max_phone_numbers := by
  unfold extractPhoneNumbers
  exact length_take_le _ _

theorem length_extractEmailAddresses_le (cfg : ContactCrawlConfig) (t h : String) :
    (extractEmailAddresses cfg t h).length ≤ cfg.max_email_addresses := by
  unfold extractEmailAddresses
  exact length_take_le _ _

theorem length_extractSocialLinks_le (cfg : ContactCrawlConfig) (t h : String) (pat : RE) :
    (extractSocialLinks cfg t h pat).length ≤ cfg.max_social_links_per_platform := by
  unfold extractSocialLinks
  exact length_take_le _ _

theorem contactLoop_bounds (cfg : ContactCrawlConfig) (web : ContactWeb) :
    ∀ (urls : List String) (acc : ContactAcc), ∃ k : Nat,
    (contactLoop cfg web urls acc).pages_crawled = acc.pages_crawled + k
    ∧ (contactLoop cfg web urls acc).phones.length
        ≤ acc.phones.length + k * cfg.max_phone_numbers
    ∧ (contactLoop cfg web urls acc).emails.length
        ≤ acc.emails.length + k * cfg.max_email_addresses
    ∧ (contactLoop cfg web urls acc).fb.length
        ≤ acc.fb.length + k * cfg.max_social_links_per_platform
    ∧ (contactLoop cfg web urls acc).ig.length
        ≤ acc.ig.length + k * cfg.max_social_links_per_platform
    ∧ (contactLoop cfg web urls acc).li.length
        ≤ acc.li.length + k * cfg.max_social_links_per_platform := by
  intro urls
  induction urls with
  | nil =>
    intro acc
    exact ⟨0, by simp [contactLoop], by simp [contactLoop], by simp [contactLoop],
      by simp [contactLoop], by simp [contactLoop], by simp [contactLoop]⟩
  | cons url rest ih =>
    intro acc
    rw [show contactLoop cfg web (url :: rest) acc
        = (if acc.pages_crawled ≥ cfg.max_pages_per_site then acc
           else
             match web.fetch url with
             | none => contactLoop cfg web rest acc
             | some pg =>
               let phones := extractPhoneNumbers cfg pg.text pg.html
               let emails := extractEmailAddresses cfg pg.text pg.html
               let fb := extractSocialLinks cfg pg.text pg.html facebookPat
               let ig := extractSocialLinks cfg pg.text pg.html instagramPat
               let li := extractSocialLinks cfg pg.text pg.html linkedinPat
               let had := phones ≠ [] ∨ emails ≠ [] ∨ fb ≠ [] ∨ ig ≠ [] ∨ li ≠ []
               contactLoop cfg web rest
                 { phones := acc.phones ++ phones
                   emails := acc.emails ++ emails
                   fb := acc.fb ++ fb
                   ig := acc.ig ++ ig
                   li := acc.li ++ li
                   pages_crawled := acc.pages_crawled + 1
                   pages_with_info :=
                     if had then acc.pages_with_info ++ [url] else acc.pages_with_info })
        from rfl]
    split
    · exact ⟨0, by simp, by simp, by simp, by simp, by simp, by simp⟩
    · cases hf : web.fetch url with
      | none => exact ih acc
      | some pg =>
        dsimp only
        obtain ⟨k, hpg, h1, h2, h3, h4, h5⟩ := ih
          { phones := acc.phones ++ extractPhoneNumbers cfg pg.text pg.html
            emails := acc.emails ++ extractEmailAddresses cfg pg.text pg.html
            fb := acc.fb ++ extractSocialLinks cfg pg.text pg.html facebookPat
            ig := acc.ig ++ extractSocialLinks cfg pg.text pg.html instagramPat
            li := acc.li ++ extractSocialLinks cfg pg.text pg.html linkedinPat
            pages_crawled := acc.pages_crawled + 1
            pages_with_info :=
              if extractPhoneNumbers cfg pg.text pg.html ≠ []
                  ∨ extractEmailAddresses cfg pg.text pg.html ≠ []
                  ∨ extractSocialLinks cfg pg.text pg.html facebookPat ≠ []
                  ∨ extractSocialLinks cfg pg.text pg.html instagramPat ≠ []
                  ∨ extractSocialLinks cfg pg.text pg.html linkedinPat ≠ [] then
                acc.pages_with_info ++ [url]
              else acc.pages_with_info }
        refine ⟨k + 1, ?_, ?_, ?_, ?_, ?_, ?_⟩
        · rw [hpg]
          dsimp only
          omega
        · refine le_trans h1 ?_
          simp only [List.length_append]
          have hb := length_extractPhoneNumbers_le cfg pg.text pg.html
          calc acc.phones.length + (extractPhoneNumbers cfg pg.text pg.html).length
                + k * cfg.max_phone_numbers
              ≤ acc.phones.length + cfg.max_phone_numbers + k * cfg.max_phone_numbers := by
                exact Nat.add_le_add_right (Nat.add_le_add_left hb _) _
            _ = acc.phones.length + (k + 1) * cfg.max_phone_numbers := by ring
        · refine le_trans h2 ?_
          simp only [List.length_append]
          have hb := length_extractEmailAddresses_le cfg pg.text pg.html
          calc acc.emails.length + (extractEmailAddresses cfg pg.text pg.html).length
                + k * cfg.max_email_addresses
              ≤ acc.emails.length + cfg.max_email_addresses + k * cfg.max_email_addresses := by
                exact Nat.add_le_add_right (Nat.add_le_add_left hb _) _
            _ = acc.emails.length + (k + 1) * cfg.max_email_addresses := by ring
        · refine le_trans h3 ?_
          simp only [List.length_append]
          have hb := length_extractSocialLinks_le cfg pg.text pg.html facebookPat
          calc acc.fb.length + (extractSocialLinks cfg pg.text pg.html facebookPat).length
                + k * cfg.max_social_links_per_platform
              ≤ acc.fb.length + cfg.max_social_links_per_platform
                  + k * cfg.max_social_links_per_platform := by
                exact Nat.add_le_add_right (Nat.add_le_add_left hb _) _
            _ = acc.fb.length + (k + 1) * cfg.max_social_links_per_platform := by ring
        · refine le_trans h4 ?_
          simp only [List.length_append]
          have hb := length_extractSocialLinks_le cfg pg.text pg.html instagramPat
          calc acc.ig.length + (extractSocialLinks cfg pg.text pg.html instagramPat).length
                + k * cfg.max_social_links_per_platform
              ≤ acc.ig.length + cfg.max_social_links_per_platform
                  + k * cfg.max_social_links_per_platform := by
                exact Nat.add_le_add_right (Nat.add_le_add_left hb _) _
            _ = acc.ig.length + (k + 1) * cfg.max_social_links_per_platform := by ring
        · refine le_trans h5 ?_
          simp only [List.length_append]
          have hb := length_extractSocialLinks_le cfg pg.text pg.html linkedinPat
          calc acc.li.length + (extractSocialLinks cfg pg.text pg.html linkedinPat).length
                + k * cfg.max_social_links_per_platform
              ≤ acc.li.length + cfg.max_social_links_per_platform
                  + k * cfg.max_social_links_per_platform := by
                exact Nat.add_le_add_right (Nat.add_le_add_left hb _) _
            _ = acc.li.length + (k + 1) * cfg.max_social_links_per_platform := by ring

/-- C9 (counterexample).  With a phone cap of 2 and two crawled pages
carrying three distinct valid landlines, the final (deduplicated) phone
list has 3 entries — the cap is enforced per page, not on the returned
`ContactInformation`. -/
theorem claim9_counterexample :
    (extractContactInfo c9cfg c9web "ex.com").phone_numbers.length = 3
    ∧ c9cfg.max_phone_numbers = 2
    ∧ (extractContactInfo c9cfg c9web "ex.com").pages_crawled = 2 := by
  refine ⟨?_, ?_, ?_⟩ <;> decide

/-- C9 (amended).  Every `ContactInformation` returned by
`extract_contact_info` has duplicate-free result lists in all five
categories, and the per-category caps hold per crawled page: each list
has at most `pages_crawled` times the category cap many entries (the cap
itself is not enforced on the final lists, see the counterexample). -/
theorem claim9_dedup_and_per_page_caps (cfg : ContactCrawlConfig) (web : ContactWeb)
    (domain : String) :
    (extractContactInfo cfg web domain).phone_numbers.Nodup
    ∧ (extractContactInfo cfg web domain).email_addresses.Nodup
    ∧ (extractContactInfo cfg web domain).facebook_links.Nodup
    ∧ (extractContactInfo cfg web domain).instagram_links.Nodup
    ∧ (extractContactInfo cfg web domain).linkedin_links.Nodup
    ∧ (extractContactInfo cfg web domain).phone_numbers.length
        ≤ (extractContactInfo cfg web domain).pages_crawled * cfg.max_phone_numbers
    ∧ (extractContactInfo cfg web domain).email_addresses.length
        ≤ (extractContactInfo cfg web domain).pages_crawled * cfg.max_email_addresses
    ∧ (extractContactInfo cfg web domain).facebook_links.length
        ≤ (extractContactInfo cfg web domain).pages_crawled * cfg.max_social_links_per_platform
    ∧ (extractContactInfo cfg web domain).instagram_links.length
        ≤ (extractContactInfo cfg web domain).pages_crawled * cfg.max_social_links_per_platform
    ∧ (extractContactInfo cfg web domain).linkedin_links.length
        ≤ (extractContactInfo cfg web domain).pages_crawled * cfg.max_social_links_per_platform := by
  obtain ⟨k, hpg, h1, h2, h3, h4, h5⟩ := contactLoop_bounds cfg web
    (dedupFirst (findContactPages cfg web domain)) ⟨[], [], [], [], [], 0, []⟩
  unfold extractContactInfo
  dsimp only
  rw [hpg]
  refine ⟨nodup_dedupFirst _, nodup_dedupFirst _, nodup_dedupFirst _, nodup_dedupFirst _,
    nodup_dedupFirst _, ?_, ?_, ?_, ?_, ?_⟩
  · exact le_trans (length_dedupFirst_le _) (by simpa using h1)
  · exact le_trans (length_dedupFirst_le _) (by simpa using h2)
  · exact le_trans (length_dedupFirst_le _) (by simpa using h3)
  · exact le_trans (length_dedupFirst_le _) (by simpa using h4)
  · exact le_trans (length_dedupFirst_le _) (by simpa using h5)
